import Mathlib

/-!
# Verification of the fleet-api assignment core

Shallow embedding, in Lean 4, of the fleet optimisation code of this
repository (the `src/` tree: `src/algorithms/assignment.py`,
`src/algorithms/relation_helper.py`, `src/assignment.py`, `src/constraints.py`,
`src/costs.py`, `src/models.py`, `src/data_loader.py`, `src/pathfinding.py`),
together with theorems settling the specification claims about it.

Modelling conventions:
* `datetime` values are rationals counting seconds (datetime arithmetic in
  Python is exact, so ℚ is a faithful carrier); `timedelta(days=d)` is
  `d * 86400`, `timedelta(hours=h)` is `h * 3600`, `timedelta(minutes=m)` is
  `m * 60`.
* Python `float` quantities (distances, costs, times) are modelled as ℚ.
* Python `int(x)` truncation toward zero is `pyInt`.
* Python dictionaries keyed by ids are association lists in insertion order,
  functions `(from, to) -> relation` are association lists `RelLookup`.
* `float('inf')` sentinels are modelled by `Option` (`none` = infeasible);
  code only ever compares against the sentinel or checks it, never computes
  with it, so this is faithful.
* Python's in-place mutation of the vehicle-state dictionary becomes explicit
  state passing: each mutating function returns the new state.
-/

namespace FleetApi

/-- Seconds carrier for `datetime` values. -/
abbrev Time := ℚ

/-- `timedelta(days=d)` in seconds. -/
def daysQ (d : ℚ) : ℚ := d * 86400

/-- `timedelta(hours=h)` in seconds. -/
def hoursQ (h : ℚ) : ℚ := h * 3600

/-- `timedelta(minutes=m)` in seconds. -/
def minutesQ (m : ℚ) : ℚ := m * 60

/-- Python `int(x)`: truncation toward zero. -/
def pyInt (q : ℚ) : ℤ := if 0 ≤ q then ⌊q⌋ else -⌊-q⌋

/-- `LocationRelation` from `src/models.py`: a directed edge between two
locations.  `time` is the raw value of the `time` field; the claims are about
which unit it carries. -/
structure LocationRelation where
  rid : ℤ
  idLoc1 : ℕ
  idLoc2 : ℕ
  dist : ℚ
  time : ℚ
deriving DecidableEq

/-- The relation lookup dictionary `(loc1, loc2) -> LocationRelation` built by
`load_location_relations`, as an association list. -/
abbrev RelLookup := List ((ℕ × ℕ) × LocationRelation)

/-- Dictionary lookup `relation_lookup.get((a, b))`. -/
def lookupPair (l : RelLookup) (k : ℕ × ℕ) : Option LocationRelation :=
  (l.find? (fun e => e.1 = k)).map (·.2)

/-- `Route` from `src/models.py`.  `startLocationId`/`endLocationId` are the
derived properties (first segment start / last segment end), `none` when the
route has no segments. -/
structure Route where
  id : ℕ
  startDatetime : Time
  endDatetime : Time
  distanceKm : ℚ
  startLocationId : Option ℕ
  endLocationId : Option ℕ
deriving DecidableEq

/-! ## Pathfinding (`src/pathfinding.py`) -/

/-- `PathResult` from `src/pathfinding.py`.  The source puts `float('inf')`
in `distance_km`/`time_hours` of the no-path result; consumers test `exists`
before reading those fields, so we carry `0` there and the `found` flag. -/
structure PathResult where
  found : Bool
  distanceKm : ℚ
  timeHours : ℚ
  path : List ℕ
deriving DecidableEq

/-- An entry of the Dijkstra priority queue:
`(total_time, total_dist, current_loc, path, hops)`. -/
structure Entry where
  time : ℚ
  dist : ℚ
  current : ℕ
  path : List ℕ
  hops : ℕ
deriving DecidableEq

/-- Python `<` on lists of ints (lexicographic, shorter prefix is smaller). -/
def listLtNat : List ℕ → List ℕ → Bool
  | [], [] => false
  | [], _ :: _ => true
  | _ :: _, [] => false
  | a :: as, b :: bs => if a < b then true else if b < a then false else listLtNat as bs

/-- Python tuple `≤` on queue entries, mirroring `heapq`'s comparison of
`(total_time, total_dist, current, path, hops)` tuples. -/
def entryLe (a b : Entry) : Bool :=
  if a.time < b.time then true else if b.time < a.time then false
  else if a.dist < b.dist then true else if b.dist < a.dist then false
  else if a.current < b.current then true else if b.current < a.current then false
  else if listLtNat a.path b.path then true else if listLtNat b.path a.path then false
  else a.hops ≤ b.hops

/-- Extract a minimal entry (and the remaining entries) from a non-empty pool;
this is the `heapq.heappop` of the source, with ties resolved to the leftmost
minimal entry. -/
def popMinAux : Entry → List Entry → Entry × List Entry
  | e, [] => (e, [])
  | e, x :: xs =>
    if entryLe e x then
      let p := popMinAux e xs
      (p.1, x :: p.2)
    else
      let p := popMinAux x xs
      (p.1, e :: p.2)

/-- The `while pq:` loop of `find_shortest_path`, with an explicit fuel bound
on the number of pops (the source loop terminates because each pop either
discards a visited node or visits a new one, and pushes are bounded). -/
def dijkstraLoop (adj : ℕ → List (ℕ × ℚ × ℚ)) (toLoc : ℕ) (maxHops : ℕ) :
    ℕ → List Entry → List ℕ → PathResult
  | 0, _, _ => ⟨false, 0, 0, []⟩
  | _ + 1, [], _ => ⟨false, 0, 0, []⟩
  | fuel + 1, e0 :: pqRest, visited =>
    let p := popMinAux e0 pqRest
    let e := p.1
    if e.current ∈ visited then dijkstraLoop adj toLoc maxHops fuel p.2 visited
    else
      let visited' := e.current :: visited
      if e.current = toLoc then ⟨true, e.dist, e.time, e.path⟩
      else if maxHops ≤ e.hops then dijkstraLoop adj toLoc maxHops fuel p.2 visited'
      else
        let pushes := (adj e.current).filterMap fun nd =>
          if nd.1 ∈ visited' then none
          else some ⟨e.time + nd.2.2, e.dist + nd.2.1, nd.1, e.path ++ [nd.1], e.hops + 1⟩
        dijkstraLoop adj toLoc maxHops fuel (p.2 ++ pushes) visited'

/-- The adjacency list of `find_shortest_path`, viewed at one node: every
relation contributes both directions, with its `time` divided by 60
("Convert time from minutes to hours for pathfinding" in the source). -/
def adjacency (l : RelLookup) (x : ℕ) : List (ℕ × ℚ × ℚ) :=
  l.foldl (fun acc e =>
    let acc := if e.1.1 = x then acc ++ [(e.1.2, e.2.dist, e.2.time / 60)] else acc
    if e.1.2 = x then acc ++ [(e.1.1, e.2.dist, e.2.time / 60)] else acc) []

/-- Fuel sufficient for the Dijkstra loop: pops are bounded by pushes, pushes
by (new visits) × (max degree) + 1. -/
def dijkstraFuel (l : RelLookup) : ℕ := (2 * l.length + 2) * (2 * l.length + 2) + 2

/-- `find_shortest_path` from `src/pathfinding.py`. -/
def findShortestPath (fromLoc toLoc : ℕ) (l : RelLookup) (maxHops : ℕ) : PathResult :=
  if fromLoc = toLoc then ⟨true, 0, 0, [fromLoc]⟩
  else match lookupPair l (fromLoc, toLoc) with
  | some d => ⟨true, d.dist, d.time / 60, [fromLoc, toLoc]⟩
  | none => match lookupPair l (toLoc, fromLoc) with
    | some d => ⟨true, d.dist, d.time / 60, [fromLoc, toLoc]⟩
    | none =>
      dijkstraLoop (adjacency l) toLoc maxHops (dijkstraFuel l) [⟨0, 0, fromLoc, [fromLoc], 0⟩] []

/-! ## Distance oracle (`src/data_loader.py: get_relation`)

`get_path_with_cache` memoises the pure `find_shortest_path`, so the cache is
semantically transparent and elided. -/

/-- `get_relation` from `src/data_loader.py`. -/
def getRelation (fromLoc toLoc : ℕ) (l : RelLookup) (usePathfinding : Bool) :
    Option LocationRelation :=
  if fromLoc = toLoc then some ⟨0, fromLoc, toLoc, 0, 0⟩
  else match lookupPair l (fromLoc, toLoc) with
  | some r => some r
  | none => match lookupPair l (toLoc, fromLoc) with
    | some r => some r
    | none =>
      if usePathfinding then
        let p := findShortestPath fromLoc toLoc l 3
        if p.found then some ⟨-1, fromLoc, toLoc, p.distanceKm, p.timeHours⟩ else none
      else none

/-! ## Configuration

One record carrying the fields of `models.AssignmentConfig` used by the
assignment code (`run_optimizer.load_config` populates all of them). -/

structure AssignmentConfig where
  relocationBaseCostPln : ℚ
  relocationPerKmPln : ℚ
  relocationPerHourPln : ℚ
  overagePerKmPln : ℚ
  serviceToleranceKm : ℤ
  serviceDurationHours : ℚ
  serviceCostPln : ℚ
  servicePenaltyPln : ℚ
  maxSwapsPerPeriod : ℕ
  swapPeriodDays : ℚ
  lookAheadDays : ℚ
  chainDepth : ℕ
  chainWeight : ℚ
  useChainOptimization : Bool
  usePathfinding : Bool
  useRelationCache : Bool
  assignmentLookaheadDays : ℚ
deriving DecidableEq

/-! ## Vehicle state

The per-vehicle simulation state: the dictionary built by
`algorithms.assignment.initialize_states`, which also carries the fields of
the `models.VehicleState` dataclass used by the claims.  A relocation-history
entry is `(date, from_location, to_location)`. -/

structure VehicleState where
  vehicleId : ℕ
  currentLocationId : ℕ
  currentOdometerKm : ℤ
  kmSinceLastService : ℤ
  kmDrivenThisLeaseYear : ℤ
  totalLifetimeKm : ℤ
  availableFrom : Time
  lastRouteId : Option ℕ
  relocations : List (Time × ℕ × ℕ)
  annualLimitKm : ℤ
  serviceIntervalKm : ℤ
  totalContractLimitKm : Option ℤ
  leaseStartDate : Time
  leaseEndDate : Time
  leaseCycleNumber : ℕ
  totalServiceCount : ℕ
  totalServiceCost : ℚ
  routesAssigned : ℕ
deriving DecidableEq

/-- `validate_route` from `src/algorithms/assignment.py`. -/
def validateRoute (r : Route) : Bool :=
  r.startLocationId.isSome && r.endLocationId.isSome &&
    decide (0 < r.distanceKm) && decide (r.startDatetime < r.endDatetime)

/-- `update_relocation_window`: drop relocations older than the swap window. -/
def updateRelocationWindow (s : VehicleState) (currentDate : Time)
    (cfg : AssignmentConfig) : VehicleState :=
  { s with relocations :=
      s.relocations.filter (fun e => currentDate - daysQ cfg.swapPeriodDays ≤ e.1) }

/-- `check_and_reset_annual_km`: the lease-year reset `while` loop.  The
source also returns a flag telling whether a reset occurred; no caller of
`update_state` consumes it, so only the state is returned. -/
def checkAndResetAnnualKm (s : VehicleState) (currentDate : Time) : VehicleState :=
  if s.leaseEndDate ≤ currentDate then
    checkAndResetAnnualKm
      { s with kmDrivenThisLeaseYear := 0
               leaseCycleNumber := s.leaseCycleNumber + 1
               leaseStartDate := s.leaseEndDate
               leaseEndDate := s.leaseEndDate + daysQ 365 }
      currentDate
  else s
termination_by (⌊(currentDate - s.leaseEndDate) / daysQ 365⌋ + 1).toNat
decreasing_by
  have hnn : (0:ℚ) ≤ (currentDate - s.leaseEndDate) / daysQ 365 :=
    div_nonneg (by linarith) (by norm_num [daysQ])
  have hfl : (0:ℤ) ≤ ⌊(currentDate - s.leaseEndDate) / daysQ 365⌋ := Int.floor_nonneg.mpr hnn
  have heq : (currentDate - (s.leaseEndDate + daysQ 365)) / daysQ 365
      = (currentDate - s.leaseEndDate) / daysQ 365 - 1 := by
    have hy : daysQ 365 ≠ 0 := by norm_num [daysQ]
    field_simp
    ring
  rw [heq, show ((1:ℚ)) = ((1:ℤ):ℚ) from by norm_num, Int.floor_sub_int]
  omega

/-- `pro_rate_km_across_lease_years` from `src/algorithms/assignment.py`. -/
def proRateKmAcrossLeaseYears (s : VehicleState) (routeStart routeEnd : Time)
    (routeKm : ℤ) : ℤ × ℤ :=
  let leaseEnd := s.leaseEndDate
  if routeEnd ≤ leaseEnd then (routeKm, 0)
  else if leaseEnd ≤ routeStart then (0, routeKm)
  else
    let totalDuration := routeEnd - routeStart
    if totalDuration ≤ 0 then (routeKm, 0)
    else
      let durationInCurrentYear := leaseEnd - routeStart
      let frac := durationInCurrentYear / totalDuration
      let kmInCurrentYear := pyInt ((routeKm : ℚ) * frac)
      (kmInCurrentYear, routeKm - kmInCurrentYear)

/-- `needs_service`: strictly over `service_interval + tolerance` only (the
`route` parameter of the source is unused). -/
def needsService (s : VehicleState) (cfg : AssignmentConfig) : Bool :=
  decide (s.serviceIntervalKm + cfg.serviceToleranceKm < s.kmSinceLastService)

/-- `calculate_service_time`: `(service_start, service_end)` if a service is
due, else `None`. -/
def calculateServiceTime (s : VehicleState) (cfg : AssignmentConfig) :
    Option (Time × Time) :=
  if needsService s cfg then
    some (s.availableFrom, s.availableFrom + hoursQ cfg.serviceDurationHours)
  else none

/-- `schedule_service`: returns the service cost and the updated state. -/
def scheduleService (s : VehicleState) (cfg : AssignmentConfig) : ℚ × VehicleState :=
  match calculateServiceTime s cfg with
  | none => (0, s)
  | some se =>
    (cfg.serviceCostPln,
     { s with kmSinceLastService := 0
              totalServiceCount := s.totalServiceCount + 1
              totalServiceCost := s.totalServiceCost + cfg.serviceCostPln
              availableFrom := se.2 })

/-- `get_cached_relation` from `src/algorithms/relation_helper.py`.  The
relation cache memoises the pure `get_relation`, so it is semantically
transparent and elided. -/
def getCachedRelation (fromLoc toLoc : ℕ) (l : RelLookup) (cfg : AssignmentConfig) :
    Option LocationRelation :=
  if fromLoc = toLoc then none
  else getRelation fromLoc toLoc l cfg.usePathfinding

/-- The rejection reasons of `check_feasibility` (its `reason` strings). -/
inductive FailReason where
  | invalidRoute
  | notAvailable
  | noPath
  | cannotReach
  | swapExceeded
  | contractLimit
deriving DecidableEq

/-- The contract-limit block of `check_feasibility` (its final lines); the
Python guard `if vehicle_state['total_contract_limit_km']:` is truthiness,
false for both `None` and `0`. -/
def contractGate (s : VehicleState) (r : Route) (l : RelLookup)
    (cfg : AssignmentConfig) (startLoc : ℕ) : Option FailReason :=
  match s.totalContractLimitKm with
  | none => none
  | some cap =>
    if cap = 0 then none
    else
      let futureKm := s.totalLifetimeKm + pyInt r.distanceKm
      let futureKm :=
        if s.currentLocationId ≠ startLoc then
          match getCachedRelation s.currentLocationId startLoc l cfg with
          | some rel => futureKm + pyInt rel.dist
          | none => futureKm
        else futureKm
      if cap < futureKm then some .contractLimit else none

/-- The availability computed at the top of `check_feasibility`: after the
potential service if one is due, else immediate. -/
def availabilityAfterService (s : VehicleState) (cfg : AssignmentConfig) : Time :=
  match calculateServiceTime s cfg with
  | some se => se.2
  | none => s.availableFrom

/-- `check_feasibility` from `src/algorithms/assignment.py`: `none` means the
pair was accepted (`(True, "OK")`), `some reason` is a rejection. -/
def checkFeasibility (s : VehicleState) (r : Route) (l : RelLookup)
    (cfg : AssignmentConfig) : Option FailReason :=
  if validateRoute r then
    let startLoc := r.startLocationId.getD 0
    let availability := availabilityAfterService s cfg
    if r.startDatetime < availability then some .notAvailable
    else if s.currentLocationId ≠ startLoc then
      match getCachedRelation s.currentLocationId startLoc l cfg with
      | none => some .noPath
      | some rel =>
        if r.startDatetime < availability + minutesQ rel.time then some .cannotReach
        else if cfg.maxSwapsPerPeriod ≤ s.relocations.length then some .swapExceeded
        else contractGate s r l cfg startLoc
    else contractGate s r l cfg startLoc
  else some .invalidRoute

/-! ## State mutation (`src/algorithms/assignment.py: update_state`) -/

/-- The relocation block of `update_state`: record the relocation and add the
relocation distance to all four kilometre counters. -/
def applyRelocation (s : VehicleState) (r : Route) (l : RelLookup)
    (cfg : AssignmentConfig) : VehicleState :=
  let startLoc := r.startLocationId.getD 0
  if s.currentLocationId ≠ startLoc then
    match getCachedRelation s.currentLocationId startLoc l cfg with
    | some rel =>
      let relocKm := pyInt rel.dist
      { s with relocations := s.relocations ++ [(r.startDatetime, s.currentLocationId, startLoc)]
               currentOdometerKm := s.currentOdometerKm + relocKm
               kmDrivenThisLeaseYear := s.kmDrivenThisLeaseYear + relocKm
               totalLifetimeKm := s.totalLifetimeKm + relocKm
               kmSinceLastService := s.kmSinceLastService + relocKm }
    | none => s
  else s

/-- The route-kilometre block of `update_state`: add the full distance to
odometer / lifetime / since-service, pro-rate the annual counter, and re-run
the lease reset at `route.end_datetime` when the route crossed the boundary. -/
def applyRouteKm (s : VehicleState) (r : Route) : VehicleState :=
  let distanceKm := pyInt r.distanceKm
  let pr := proRateKmAcrossLeaseYears s r.startDatetime r.endDatetime distanceKm
  let s := { s with currentOdometerKm := s.currentOdometerKm + distanceKm
                    totalLifetimeKm := s.totalLifetimeKm + distanceKm
                    kmSinceLastService := s.kmSinceLastService + distanceKm }
  let s := { s with kmDrivenThisLeaseYear := s.kmDrivenThisLeaseYear + pr.1 }
  if 0 < pr.2 then
    let s := checkAndResetAnnualKm s r.endDatetime
    { s with kmDrivenThisLeaseYear := s.kmDrivenThisLeaseYear + pr.2 }
  else s

/-- `update_state` from `src/algorithms/assignment.py`: the state mutator run
on every accepted assignment. -/
def updateState (s : VehicleState) (r : Route) (l : RelLookup)
    (cfg : AssignmentConfig) : VehicleState :=
  let s1 := checkAndResetAnnualKm s r.startDatetime
  let s2 := updateRelocationWindow s1 r.startDatetime cfg
  let s3 := (scheduleService s2 cfg).2
  let s4 := applyRelocation s3 r l cfg
  let s5 := { s4 with currentLocationId := r.endLocationId.getD 0 }
  let s6 := applyRouteKm s5 r
  { s6 with availableFrom := r.endDatetime
            lastRouteId := some r.id
            routesAssigned := s6.routesAssigned + 1 }

/-- The relocation kilometres `int(relation.dist)` that `update_state` adds
when the vehicle at `loc` must first move to the route's start (0 when no
relocation happens or no relation is found). -/
def relocationKmFrom (loc : ℕ) (r : Route) (l : RelLookup) (cfg : AssignmentConfig) : ℤ :=
  if loc ≠ r.startLocationId.getD 0 then
    match getCachedRelation loc (r.startLocationId.getD 0) l cfg with
    | some rel => pyInt rel.dist
    | none => 0
  else 0

/-! ## Cost model (`src/algorithms/relation_helper.py`,
`src/algorithms/assignment.py: calculate_assignment_cost`) -/

/-- `calculate_relocation_cost` from `src/algorithms/relation_helper.py`
(`relation.time` divided by 60 at this cost boundary). -/
def calculateRelocationCostHelper (rel : Option LocationRelation)
    (cfg : AssignmentConfig) : ℚ :=
  match rel with
  | none => 0
  | some r =>
    cfg.relocationBaseCostPln + r.dist * cfg.relocationPerKmPln +
      r.time / 60 * cfg.relocationPerHourPln

/-- `get_relocation_info` from `src/algorithms/relation_helper.py`. -/
def getRelocationInfo (fromLoc toLoc : ℕ) (l : RelLookup) (cfg : AssignmentConfig) :
    Option LocationRelation × ℚ :=
  match getCachedRelation fromLoc toLoc l cfg with
  | none => (none, 0)
  | some rel => (some rel, calculateRelocationCostHelper (some rel) cfg)

/-- `calculate_assignment_cost` from `src/algorithms/assignment.py`; `none`
models `INFEASIBLE_COST = float('inf')` (no path), `workloads = []` models the
`vehicle_workloads=None` default. -/
def calculateAssignmentCost (s : VehicleState) (r : Route) (l : RelLookup)
    (cfg : AssignmentConfig) (workloads : List (ℕ × ℕ)) : Option ℚ :=
  let startLoc := r.startLocationId.getD 0
  let relocPart : Option ℚ :=
    if s.currentLocationId ≠ startLoc then
      match getRelocationInfo s.currentLocationId startLoc l cfg with
      | (none, _) => none
      | (some _, c) => some c
    else some 0
  relocPart.map fun c0 =>
    let futureKm := s.kmDrivenThisLeaseYear + pyInt r.distanceKm
    let c1 := if s.annualLimitKm < futureKm
      then c0 + ((futureKm - s.annualLimitKm : ℤ) : ℚ) * cfg.overagePerKmPln else c0
    let c2 := if needsService s cfg then c1 + cfg.serviceCostPln else c1
    if workloads ≠ [] then
      let currentWorkload := ((workloads.find? (fun w => w.1 = s.vehicleId)).map (·.2)).getD 0
      if 0 < currentWorkload then
        let totalAssigned := (workloads.map (·.2)).sum
        let numActive := (workloads.filter (fun w => 0 < w.2)).length
        let avgWorkload : ℚ := if 0 < numActive then (totalAssigned : ℚ) / (numActive : ℚ) else 0
        if avgWorkload * (6/5) < (currentWorkload : ℚ) then
          let excess := ((currentWorkload : ℚ) - avgWorkload) / (avgWorkload + 1)
          c2 + min 500 (50 + excess * 200)
        else c2
      else c2
    else c2

/-! ## Vehicles and driver initialisation -/

/-- `Vehicle` from `src/models.py` (the fields the algorithms read; the
`registration_number`/`brand` strings play no role in the claims). -/
structure Vehicle where
  id : ℕ
  serviceIntervalKm : ℤ
  leasingStartKm : ℤ
  leasingLimitKm : ℤ
  leasingStartDate : Time
  leasingEndDate : Time
  currentOdometerKm : ℤ
  currentLocationId : ℕ
deriving DecidableEq

/-- `Vehicle.has_lifetime_limit`: limits above 200000 are lifetime caps. -/
def Vehicle.hasLifetimeLimit (v : Vehicle) : Bool := decide (200000 < v.leasingLimitKm)

/-- `Vehicle.annual_limit_km`. -/
def Vehicle.annualLimitKm (v : Vehicle) : ℤ :=
  if v.hasLifetimeLimit then 150000 else v.leasingLimitKm

/-- `Vehicle.total_contract_limit_km`. -/
def Vehicle.totalContractLimitKm (v : Vehicle) : Option ℤ :=
  if v.hasLifetimeLimit then some v.leasingLimitKm else none

/-- The per-vehicle dictionary built by `initialize_states` in
`src/algorithms/assignment.py`. -/
def initialVehicleState (v : Vehicle) (availableFrom : Time) : VehicleState where
  vehicleId := v.id
  currentLocationId := v.currentLocationId
  currentOdometerKm := v.currentOdometerKm
  kmSinceLastService := 0
  kmDrivenThisLeaseYear := 0
  totalLifetimeKm := v.currentOdometerKm
  availableFrom := availableFrom
  lastRouteId := none
  relocations := []
  annualLimitKm := v.annualLimitKm
  serviceIntervalKm := v.serviceIntervalKm
  totalContractLimitKm := v.totalContractLimitKm
  leaseStartDate := v.leasingStartDate
  leaseEndDate := v.leasingEndDate
  leaseCycleNumber := 1
  totalServiceCount := 0
  totalServiceCost := 0
  routesAssigned := 0

/-- `initialize_states`: vehicles become available
`INITIAL_AVAILABILITY_HOURS = 24` hours before the start date. -/
def initStates (vehicles : List Vehicle) (startDate : Time) : List (ℕ × VehicleState) :=
  vehicles.map fun v => (v.id, initialVehicleState v (startDate - hoursQ 24))

/-! ## The greedy assignment driver (`optimize_assignment_greedy`) -/

/-- One emitted assignment record (the dictionary appended to `assignments`). -/
structure AssignmentRecord where
  routeId : ℕ
  vehicleId : ℕ
  date : Time
  routeStartLocation : Option ℕ
  routeEndLocation : Option ℕ
  requiresRelocation : Bool
  cost : ℚ
  chainScore : ℚ
deriving DecidableEq

/-- Accumulated driver state: vehicle states, workload counters, the emitted
assignments and the unassigned route ids. -/
structure GreedyAcc where
  states : List (ℕ × VehicleState)
  workloads : List (ℕ × ℕ)
  assignments : List AssignmentRecord
  unassigned : List ℕ
deriving DecidableEq

/-- One iteration of the candidate scan of `optimize_assignment_greedy`: skip
an infeasible vehicle, otherwise keep the strictly cheaper of the candidate
and the running best (`none` is the initial `float('inf')` best). -/
def greedyScanStep (r : Route) (l : RelLookup) (cfg : AssignmentConfig)
    (workloads : List (ℕ × ℕ)) (best : Option (ℕ × ℚ)) (p : ℕ × VehicleState) :
    Option (ℕ × ℚ) :=
  if checkFeasibility p.2 r l cfg ≠ none then best
  else match calculateAssignmentCost p.2 r l cfg workloads with
    | none => best
    | some cost =>
      match best with
      | none => some (p.1, cost)
      | some b => if cost < b.2 then some (p.1, cost) else best

/-- The candidate scan of `optimize_assignment_greedy` over the vehicle-state
dictionary. -/
def greedyBest (states : List (ℕ × VehicleState)) (r : Route) (l : RelLookup)
    (cfg : AssignmentConfig) (workloads : List (ℕ × ℕ)) : Option (ℕ × ℚ) :=
  states.foldl (greedyScanStep r l cfg workloads) none

/-- `vehicle_workloads[vid] += 1` on a `defaultdict(int)`. -/
def bumpWorkload (w : List (ℕ × ℕ)) (vid : ℕ) : List (ℕ × ℕ) :=
  if (w.find? (fun e => e.1 = vid)).isSome then
    w.map (fun e => if e.1 = vid then (e.1, e.2 + 1) else e)
  else w ++ [(vid, 1)]

/-- In-place update of one entry of the vehicle-state dictionary. -/
def setState (states : List (ℕ × VehicleState)) (vid : ℕ)
    (f : VehicleState → VehicleState) : List (ℕ × VehicleState) :=
  states.map fun e => if e.1 = vid then (e.1, f e.2) else e

/-- One iteration of the route loop of `optimize_assignment_greedy`: assign
the best vehicle and mutate its state, or append the route id to the
unassigned list.  (The inner `none` branch of the state lookup is unreachable:
`greedyBest` only returns ids of the dictionary.) -/
def greedyStep (l : RelLookup) (cfg : AssignmentConfig) (acc : GreedyAcc)
    (r : Route) : GreedyAcc :=
  match greedyBest acc.states r l cfg acc.workloads with
  | none => { acc with unassigned := acc.unassigned ++ [r.id] }
  | some best =>
    match (acc.states.find? (fun e => e.1 = best.1)).map (·.2) with
    | none => { acc with unassigned := acc.unassigned ++ [r.id] }
    | some st =>
      { states := setState acc.states best.1 (fun s => updateState s r l cfg)
        workloads := bumpWorkload acc.workloads best.1
        assignments := acc.assignments ++
          [{ routeId := r.id
             vehicleId := best.1
             date := r.startDatetime
             routeStartLocation := r.startLocationId
             routeEndLocation := r.endLocationId
             requiresRelocation := decide (st.currentLocationId ≠ r.startLocationId.getD 0)
             cost := best.2
             chainScore := 0 }]
        unassigned := acc.unassigned }

/-- `filter_routes_by_lookahead`. -/
def filterRoutesByLookahead (routes : List Route) (lookaheadDays : ℚ) : List Route :=
  match routes with
  | [] => routes
  | r0 :: _ =>
    if lookaheadDays ≤ 0 then routes
    else routes.filter (fun r => r.startDatetime < r0.startDatetime + daysQ lookaheadDays)

/-- `optimize_assignment_greedy`: the recommended assignment driver.  (For an
empty route list the source seeds the start date with `datetime.now()`; `0`
stands for that value, which no claim touches.) -/
def optimizeAssignmentGreedy (vehicles : List Vehicle) (routes : List Route)
    (l : RelLookup) (cfg : AssignmentConfig) : GreedyAcc :=
  let routesToAssign :=
    if 0 < cfg.assignmentLookaheadDays then
      filterRoutesByLookahead routes cfg.assignmentLookaheadDays
    else routes
  let startDate := match routes with
    | [] => 0
    | r0 :: _ => r0.startDatetime
  routesToAssign.foldl (greedyStep l cfg) ⟨initStates vehicles startDate, [], [], []⟩

/-! ## The second implementation: `src/constraints.py`, `src/costs.py`,
`src/assignment.py` (the look-ahead driver with the performance shortcut and
the relaxed swap pass).  `get_relation` is called there with its default
`use_pathfinding=True`. -/

/-- `is_time_feasible` from `src/constraints.py`. -/
def isTimeFeasible (s : VehicleState) (r : Route) (l : RelLookup) : Bool :=
  if r.startDatetime < s.availableFrom then false
  else if s.currentLocationId ≠ r.startLocationId.getD 0 then
    match getRelation s.currentLocationId (r.startLocationId.getD 0) l true with
    | none => false
    | some rel => decide (s.availableFrom + minutesQ rel.time ≤ r.startDatetime)
  else true

/-- `check_service_need` from `src/constraints.py`. -/
def checkServiceNeed (s : VehicleState) (r : Route) (cfg : AssignmentConfig) : Bool × ℤ :=
  let kmAfter := s.kmSinceLastService + pyInt r.distanceKm
  (decide (s.serviceIntervalKm + cfg.serviceToleranceKm < kmAfter), kmAfter)

/-- `check_contract_limit` from `src/constraints.py` (`(violates, future_km)`;
here the source tests `is None`, not truthiness). -/
def checkContractLimit (s : VehicleState) (r : Route) : Bool × ℤ :=
  match s.totalContractLimitKm with
  | none => (false, s.totalLifetimeKm + pyInt r.distanceKm)
  | some cap =>
    let futureKm := s.totalLifetimeKm + pyInt r.distanceKm
    (decide (cap < futureKm), futureKm)

/-- `VehicleState.can_swap_at` from `src/models.py`: prunes the relocation
history at read time and allows a swap only when no recent relocation
remains. -/
def canSwapAt (s : VehicleState) (date : Time) (swapPeriodDays : ℚ) : Bool :=
  if s.relocations = [] then true
  else
    let cutoff := date - daysQ swapPeriodDays
    decide ((s.relocations.filter (fun e => cutoff ≤ e.1)).length = 0)

/-- `check_swap_policy` from `src/constraints.py`
(`(requires_swap, days_since_last_swap)`; `timedelta.days` floors). -/
def checkSwapPolicy (s : VehicleState) (r : Route) (l : RelLookup)
    (cfg : AssignmentConfig) : Bool × ℤ :=
  if s.currentLocationId = r.startLocationId.getD 0 then (false, 999)
  else match getRelation s.currentLocationId (r.startLocationId.getD 0) l true with
  | none => (true, 0)
  | some _ =>
    let canSwap := canSwapAt s r.startDatetime cfg.swapPeriodDays
    let daysSince :=
      match s.relocations.getLast? with
      | some last => ⌊(r.startDatetime - last.1) / 86400⌋
      | none => (999 : ℤ)
    (!canSwap, daysSince)

/-- `is_feasible` from `src/constraints.py` (the hard-constraint gate of the
`src/assignment.py` driver; the relaxed pass calls it with
`enforce_swap_policy=False`). -/
def isFeasible (s : VehicleState) (r : Route) (l : RelLookup)
    (cfg : AssignmentConfig) (enforceSwapPolicy : Bool) : Bool :=
  if !(isTimeFeasible s r l) then false
  else if (checkContractLimit s r).1 then false
  else if enforceSwapPolicy then
    let sw := checkSwapPolicy s r l cfg
    if sw.1 && decide ((sw.2 : ℚ) < cfg.swapPeriodDays) then false else true
  else true

/-- `calculate_relocation_cost` from `src/costs.py`
(`(total_cost, distance_km, time)`; the hour conversion divides the stored
`time` by 60 at this cost boundary). -/
def calculateRelocationCostCosts (fromLoc toLoc : ℕ) (l : RelLookup)
    (cfg : AssignmentConfig) : ℚ × ℚ × ℚ :=
  if fromLoc = toLoc then (0, 0, 0)
  else match getRelation fromLoc toLoc l true with
  | none => (999999, 0, 0)
  | some rel =>
    (cfg.relocationBaseCostPln + rel.dist * cfg.relocationPerKmPln +
       rel.time / 60 * cfg.relocationPerHourPln, rel.dist, rel.time)

/-- `calculate_overage_cost` from `src/costs.py`. -/
def calculateOverageCost (kmYear annualLimit : ℤ) (cfg : AssignmentConfig) : ℚ × ℤ :=
  if kmYear ≤ annualLimit then (0, 0)
  else (((kmYear - annualLimit : ℤ) : ℚ) * cfg.overagePerKmPln, kmYear - annualLimit)

/-- `VehicleState.needs_service` from `src/models.py`. -/
def vehicleNeedsService (s : VehicleState) (toleranceKm : ℤ) : Bool :=
  decide (s.serviceIntervalKm + toleranceKm < s.kmSinceLastService)

/-- `calculate_assignment_cost` from `src/costs.py` (the breakdown sum with
its default zero look-ahead bonus). -/
def calculateAssignmentCostCosts (s : VehicleState) (r : Route) (l : RelLookup)
    (cfg : AssignmentConfig) : ℚ :=
  let reloc := if s.currentLocationId ≠ r.startLocationId.getD 0 then
      (calculateRelocationCostCosts s.currentLocationId (r.startLocationId.getD 0) l cfg).1
    else 0
  let overage := (calculateOverageCost (s.kmDrivenThisLeaseYear + pyInt r.distanceKm)
    s.annualLimitKm cfg).1
  let svc := if vehicleNeedsService s cfg.serviceToleranceKm then cfg.servicePenaltyPln else 0
  reloc + overage + svc

/-- The strict first pass of `find_best_vehicle_with_lookahead`: all vehicles
passing `is_feasible` with the swap gate, with their immediate cost. -/
def strictCandidates (states : List (ℕ × VehicleState)) (r : Route) (l : RelLookup)
    (cfg : AssignmentConfig) : List (ℕ × VehicleState × ℚ) :=
  states.filterMap fun p =>
    if isFeasible p.2 r l cfg true then
      some (p.1, p.2, calculateAssignmentCostCosts p.2 r l cfg)
    else none

/-- The relaxed second pass of `find_best_vehicle_with_lookahead`: swap gate
dropped, a fixed `5000.0` penalty added to each candidate's cost. -/
def relaxedCandidates (states : List (ℕ × VehicleState)) (r : Route) (l : RelLookup)
    (cfg : AssignmentConfig) : List (ℕ × VehicleState × ℚ) :=
  states.filterMap fun p =>
    if isFeasible p.2 r l cfg false then
      some (p.1, p.2, calculateAssignmentCostCosts p.2 r l cfg + 5000)
    else none

/-- Ordering key of `feasible_vehicles.sort(key=lambda x: x[2])`. -/
def candidateLe (a b : ℕ × VehicleState × ℚ) : Prop := a.2.2 ≤ b.2.2

instance : DecidableRel candidateLe := fun a b => inferInstanceAs (Decidable (a.2.2 ≤ b.2.2))

instance : IsTotal (ℕ × VehicleState × ℚ) candidateLe := ⟨fun a b => le_total a.2.2 b.2.2⟩

instance : IsTrans (ℕ × VehicleState × ℚ) candidateLe :=
  ⟨fun _ _ _ hab hbc => le_trans hab hbc⟩

/-- The candidate list of `find_best_vehicle_with_lookahead`: the strict pass,
falling back to the relaxed pass when the strict pass found nobody. -/
def lookaheadCandidates (states : List (ℕ × VehicleState)) (r : Route) (l : RelLookup)
    (cfg : AssignmentConfig) : List (ℕ × VehicleState × ℚ) :=
  let feasible := strictCandidates states r l cfg
  if feasible.isEmpty then relaxedCandidates states r l cfg else feasible

/-- The gap shortcut of `find_best_vehicle_with_lookahead`:
`cost_diff > 2000.0 or cost_ratio > 0.5` with
`cost_ratio = cost_diff / (cheapest_cost + 1.0)`. -/
def lookaheadGap (first second : ℕ × VehicleState × ℚ) : Prop :=
  2000 < second.2.2 - first.2.2 ∨ 1/2 < (second.2.2 - first.2.2) / (first.2.2 + 1)

instance (a b : ℕ × VehicleState × ℚ) : Decidable (lookaheadGap a b) :=
  inferInstanceAs
    (Decidable (2000 < b.2.2 - a.2.2 ∨ 1/2 < (b.2.2 - a.2.2) / (a.2.2 + 1)))

/-- `to_evaluate = [c for c in feasible_vehicles[:min(5, len)] if
c[2] <= cheapest_cost * 1.20]` over the sorted candidate list. -/
def lookaheadToEval (sorted : List (ℕ × VehicleState × ℚ)) :
    List (ℕ × VehicleState × ℚ) :=
  match sorted with
  | [] => []
  | first :: _ =>
    (sorted.take (min 5 sorted.length)).filter fun c => c.2.2 ≤ first.2.2 * (6/5)

/-- The record kept for a scored candidate:
`(effective_cost, vehicle_id, immediate_cost, chain_score)` with
`effective_cost = cost - chain_score * chain_weight`. -/
def effKey (cfg : AssignmentConfig) (chainScore : VehicleState → ℚ)
    (c : ℕ × VehicleState × ℚ) : ℚ × ℕ × ℚ × ℚ :=
  (c.2.2 - chainScore c.2.1 * cfg.chainWeight, c.1, c.2.2, chainScore c.2.1)

/-- One iteration of the `best_vehicle` scan over the scored candidates:
keep the strictly smaller effective cost. -/
def effScanStep (cfg : AssignmentConfig) (chainScore : VehicleState → ℚ)
    (acc : Option (ℚ × ℕ × ℚ × ℚ)) (c : ℕ × VehicleState × ℚ) :
    Option (ℚ × ℕ × ℚ × ℚ) :=
  match acc with
  | none => some (effKey cfg chainScore c)
  | some b =>
    if (effKey cfg chainScore c).1 < b.1 then some (effKey cfg chainScore c) else acc

/-- `find_best_vehicle_with_lookahead` from `src/assignment.py`.  Python's
stable `list.sort` is modelled by the stable `insertionSort` (all stable sorts
agree).  `build_future_route_chain` is abstracted as the `chainScore`
parameter — the theorems below quantify over it.  The result is
`(vehicle_id, immediate_cost, chain_score)`, `none` for `(None, inf, 0.0)`. -/
def findBestVehicleWithLookahead (states : List (ℕ × VehicleState)) (r : Route)
    (l : RelLookup) (cfg : AssignmentConfig) (chainScore : VehicleState → ℚ) :
    Option (ℕ × ℚ × ℚ) :=
  match List.insertionSort candidateLe (lookaheadCandidates states r l cfg) with
  | [] => none
  | first :: restS =>
    if cfg.chainDepth = 0 ∨ cfg.lookAheadDays = 0 then some (first.1, first.2.2, 0)
    else match restS with
    | [] => some (first.1, first.2.2, 0)
    | second :: _ =>
      if lookaheadGap first second then
        some (first.1, first.2.2, 0)
      else
        let toEval := lookaheadToEval (first :: restS)
        let best := toEval.foldl (effScanStep cfg chainScore) none
        best.map fun b => (b.2.1, b.2.2.1, b.2.2.2)

/-- The candidate loop of `optimize_assignment_with_lookahead` in
`src/algorithms/assignment.py` (lines 737–773): effective cost is
`immediate_cost - chain_score * chain_weight * 2.0`, every feasible vehicle is
scored, and if no finite effective cost was found the first feasible candidate
is taken.  `build_future_chain` is abstracted as `chainScore`. -/
def lookaheadSelect (states : List (ℕ × VehicleState)) (r : Route) (l : RelLookup)
    (cfg : AssignmentConfig) (chainScore : VehicleState → ℚ) :
    Option (ℕ × Option ℚ × ℚ) :=
  let scan := states.foldl
    (fun (acc : List (ℕ × Option ℚ × ℚ) × Option (ℚ × ℕ × ℚ × ℚ)) p =>
      if checkFeasibility p.2 r l cfg ≠ none then acc
      else
        let immediateCost := calculateAssignmentCost p.2 r l cfg []
        let score :=
          if cfg.useChainOptimization ∧ 0 < cfg.lookAheadDays ∧ 0 < cfg.chainDepth then
            chainScore p.2
          else 0
        let cands := acc.1 ++ [(p.1, immediateCost, score)]
        match immediateCost with
        | none => (cands, acc.2)
        | some ic =>
          let eff := ic - score * cfg.chainWeight * 2
          match acc.2 with
          | none => (cands, some (eff, p.1, ic, score))
          | some b => if eff < b.1 then (cands, some (eff, p.1, ic, score)) else (cands, acc.2))
    ([], none)
  match scan.2 with
  | some b => some (b.2.1, some b.2.2.1, b.2.2.2)
  | none =>
    match scan.1 with
    | c :: _ => some c
    | [] => none

/-! # Concrete inputs used by witnesses and counterexamples -/

/-- Two direct relations `1→2` and `2→3`, each 60 minutes; no direct `1→3`. -/
def c8Lookup : RelLookup :=
  [((1, 2), ⟨10, 1, 2, 50, 60⟩), ((2, 3), ⟨11, 2, 3, 70, 60⟩)]

def c10Vehicle : Vehicle where
  id := 4
  serviceIntervalKm := 30000
  leasingStartKm := 5000
  leasingLimitKm := 120000
  leasingStartDate := 0
  leasingEndDate := daysQ 365
  currentOdometerKm := 77777
  currentLocationId := 9

def c3State : VehicleState where
  vehicleId := 1
  currentLocationId := 1
  currentOdometerKm := 1000
  kmSinceLastService := 0
  kmDrivenThisLeaseYear := 0
  totalLifetimeKm := 1000
  availableFrom := 0
  lastRouteId := none
  relocations := []
  annualLimitKm := 100000
  serviceIntervalKm := 30000
  totalContractLimitKm := none
  leaseStartDate := 0
  leaseEndDate := daysQ 365
  leaseCycleNumber := 1
  totalServiceCount := 0
  totalServiceCost := 0
  routesAssigned := 0

def c3Route : Route where
  id := 7
  startDatetime := 100
  endDatetime := 7300
  distanceKm := 40
  startLocationId := some 2
  endLocationId := some 3

def c3Lookup : RelLookup := [((1, 2), ⟨5, 1, 2, 10, 1⟩)]

def c3Cfg : AssignmentConfig where
  relocationBaseCostPln := 1000
  relocationPerKmPln := 1
  relocationPerHourPln := 150
  overagePerKmPln := 92/100
  serviceToleranceKm := 1000
  serviceDurationHours := 48
  serviceCostPln := 2000
  servicePenaltyPln := 500
  maxSwapsPerPeriod := 1
  swapPeriodDays := 90
  lookAheadDays := 0
  chainDepth := 0
  chainWeight := 10
  useChainOptimization := false
  usePathfinding := false
  useRelationCache := true
  assignmentLookaheadDays := 0

def c1State : VehicleState where
  vehicleId := 2
  currentLocationId := 1
  currentOdometerKm := 2000
  kmSinceLastService := 100
  kmDrivenThisLeaseYear := 5
  totalLifetimeKm := 2000
  availableFrom := 0
  lastRouteId := none
  relocations := []
  annualLimitKm := 100000
  serviceIntervalKm := 30000
  totalContractLimitKm := none
  leaseStartDate := 0
  leaseEndDate := 1000
  leaseCycleNumber := 1
  totalServiceCount := 0
  totalServiceCost := 0
  routesAssigned := 0

def c1Route : Route where
  id := 11
  startDatetime := 500
  endDatetime := 1500
  distanceKm := 10
  startLocationId := some 1
  endLocationId := some 1

def c6State : VehicleState where
  vehicleId := 3
  currentLocationId := 1
  currentOdometerKm := 1000
  kmSinceLastService := 0
  kmDrivenThisLeaseYear := 0
  totalLifetimeKm := 1000
  availableFrom := 0
  lastRouteId := none
  relocations := []
  annualLimitKm := 150000
  serviceIntervalKm := 30000
  totalContractLimitKm := some 500000
  leaseStartDate := 0
  leaseEndDate := daysQ 365
  leaseCycleNumber := 1
  totalServiceCount := 0
  totalServiceCost := 0
  routesAssigned := 0

def c6Route : Route where
  id := 21
  startDatetime := 100
  endDatetime := 7300
  distanceKm := 40
  startLocationId := some 1
  endLocationId := some 1

def c7StateA : VehicleState where
  vehicleId := 7
  currentLocationId := 1
  currentOdometerKm := 100
  kmSinceLastService := 0
  kmDrivenThisLeaseYear := 0
  totalLifetimeKm := 100
  availableFrom := 0
  lastRouteId := none
  relocations := []
  annualLimitKm := 100000
  serviceIntervalKm := 30000
  totalContractLimitKm := none
  leaseStartDate := 0
  leaseEndDate := daysQ 365
  leaseCycleNumber := 1
  totalServiceCount := 0
  totalServiceCost := 0
  routesAssigned := 0

def c7StateB : VehicleState := { c7StateA with vehicleId := 3 }

def c7Route : Route where
  id := 31
  startDatetime := 100
  endDatetime := 200
  distanceKm := 1
  startLocationId := some 1
  endLocationId := some 1

def c9State : VehicleState := { c7StateA with vehicleId := 9, availableFrom := 900 }

def c9Route : Route where
  id := 41
  startDatetime := 100
  endDatetime := 200
  distanceKm := 1
  startLocationId := some 1
  endLocationId := some 1

def c9Acc : GreedyAcc where
  states := [(9, c9State)]
  workloads := []
  assignments := []
  unassigned := []

/-- A configuration with chain optimisation on (`look_ahead_days = 7`,
`chain_depth = 3`, `chain_weight = 3/5`) and a unit overage rate. -/
def c4Cfg : AssignmentConfig :=
  { c3Cfg with overagePerKmPln := 1
               lookAheadDays := 7
               chainDepth := 3
               chainWeight := 3/5
               useChainOptimization := true }

def c4StateA : VehicleState :=
  { c7StateA with vehicleId := 1, kmDrivenThisLeaseYear := 99, annualLimitKm := 0 }

def c4StateB : VehicleState :=
  { c7StateA with vehicleId := 2, kmDrivenThisLeaseYear := 100, annualLimitKm := 0 }

def c4Route : Route where
  id := 61
  startDatetime := 100
  endDatetime := 200
  distanceKm := 1
  startLocationId := some 1
  endLocationId := some 1

/-- A chain scorer giving vehicle 2 a chain score of 1 and everyone else 0. -/
def c4Score : VehicleState → ℚ := fun s => if s.vehicleId = 2 then 1 else 0

def c5Lookup : RelLookup := [((1, 2), ⟨6, 1, 2, 10, 1⟩)]

/-- A vehicle whose only obstacle is the swap budget: one relocation already
inside the 90-day window. -/
def c5State : VehicleState :=
  { c7StateA with vehicleId := 5, relocations := [(95, 2, 1)] }

def c5Route : Route where
  id := 51
  startDatetime := 100
  endDatetime := 200
  distanceKm := 1
  startLocationId := some 2
  endLocationId := some 2

def c5Acc : GreedyAcc where
  states := [(5, c5State)]
  workloads := []
  assignments := []
  unassigned := []

/-! # Helper lemmas -/

/-- The contract gate only ever rejects with the contract-limit reason. -/
theorem contractGate_cases (s : VehicleState) (r : Route) (l : RelLookup)
    (cfg : AssignmentConfig) (startLoc : ℕ) :
    contractGate s r l cfg startLoc = none ∨
      contractGate s r l cfg startLoc = some .contractLimit := by
  rcases h : contractGate s r l cfg startLoc with _ | f
  · exact Or.inl rfl
  · right
    congr 1
    unfold contractGate at h
    rcases hc : s.totalContractLimitKm with _ | cap
    · rw [hc] at h
      exact absurd h (by simp)
    · rw [hc] at h
      simp only at h
      repeat' split at h
      all_goals first
        | exact (Option.some.inj h).symm
        | exact absurd h (by simp)

/-- The availability used by `check_feasibility` spelled out: `available_from`
plus the service duration when `km_since_service` already exceeds
`service_interval + service_tolerance`. -/
theorem availabilityAfterService_eq (s : VehicleState) (cfg : AssignmentConfig) :
    availabilityAfterService s cfg =
      (if s.serviceIntervalKm + cfg.serviceToleranceKm < s.kmSinceLastService
        then s.availableFrom + hoursQ cfg.serviceDurationHours
        else s.availableFrom) := by
  unfold availabilityAfterService calculateServiceTime needsService
  by_cases h : s.serviceIntervalKm + cfg.serviceToleranceKm < s.kmSinceLastService
  · simp [h]
  · simp [h]

/-- Full characterisation of acceptance by `check_feasibility`. -/
theorem checkFeasibility_none_iff (s : VehicleState) (r : Route) (l : RelLookup)
    (cfg : AssignmentConfig) :
    checkFeasibility s r l cfg = none ↔
      validateRoute r = true ∧
      availabilityAfterService s cfg ≤ r.startDatetime ∧
      (s.currentLocationId ≠ r.startLocationId.getD 0 →
        ∃ rel, getCachedRelation s.currentLocationId (r.startLocationId.getD 0) l cfg = some rel ∧
          availabilityAfterService s cfg + minutesQ rel.time ≤ r.startDatetime ∧
          s.relocations.length < cfg.maxSwapsPerPeriod) ∧
      contractGate s r l cfg (r.startLocationId.getD 0) = none := by
  unfold checkFeasibility
  by_cases hval : validateRoute r = true
  · by_cases h1 : r.startDatetime < availabilityAfterService s cfg
    · simp [hval, h1, not_le.mpr h1]
    · by_cases h2 : s.currentLocationId ≠ r.startLocationId.getD 0
      · rcases hget : getCachedRelation s.currentLocationId (r.startLocationId.getD 0) l cfg with
          _ | rel
        · simp [hval, h1, h2, hget]
        · by_cases h3 : r.startDatetime <
              availabilityAfterService s cfg + minutesQ rel.time
          · simp [hval, h1, h2, hget, h3, not_le.mpr h3]
          · by_cases h4 : cfg.maxSwapsPerPeriod ≤ s.relocations.length
            · simp [hval, h1, h2, hget, h3, h4, not_lt.mp h1, not_lt.mpr h4]
            · simp [hval, h1, h2, hget, h3, h4, not_lt.mp h1, not_lt.mp h3,
                Nat.lt_of_not_le h4]
      · simp [hval, h1, h2, not_lt.mp h1]
  · simp [hval]

/-- The lease-year reset loop touches only the four lease fields. -/
theorem reset_preserves (s : VehicleState) (t : Time) :
    (checkAndResetAnnualKm s t).currentOdometerKm = s.currentOdometerKm ∧
    (checkAndResetAnnualKm s t).totalLifetimeKm = s.totalLifetimeKm ∧
    (checkAndResetAnnualKm s t).kmSinceLastService = s.kmSinceLastService ∧
    (checkAndResetAnnualKm s t).availableFrom = s.availableFrom ∧
    (checkAndResetAnnualKm s t).currentLocationId = s.currentLocationId ∧
    (checkAndResetAnnualKm s t).relocations = s.relocations ∧
    (checkAndResetAnnualKm s t).serviceIntervalKm = s.serviceIntervalKm ∧
    (checkAndResetAnnualKm s t).annualLimitKm = s.annualLimitKm ∧
    (checkAndResetAnnualKm s t).totalContractLimitKm = s.totalContractLimitKm ∧
    (checkAndResetAnnualKm s t).vehicleId = s.vehicleId := by
  induction s, t using checkAndResetAnnualKm.induct with
  | case1 s t h ih =>
    rw [checkAndResetAnnualKm, if_pos h]
    simpa using ih
  | case2 s t h =>
    rw [checkAndResetAnnualKm, if_neg h]
    exact ⟨rfl, rfl, rfl, rfl, rfl, rfl, rfl, rfl, rfl, rfl⟩

/-- After the reset loop the current date lies before the lease end. -/
theorem reset_lt (s : VehicleState) (t : Time) :
    t < (checkAndResetAnnualKm s t).leaseEndDate := by
  induction s, t using checkAndResetAnnualKm.induct with
  | case1 s t h ih =>
    rw [checkAndResetAnnualKm, if_pos h]
    exact ih
  | case2 s t h =>
    rw [checkAndResetAnnualKm, if_neg h]
    exact not_le.mp h

/-- The reset loop is the identity when the date is before the lease end. -/
theorem reset_id (s : VehicleState) (t : Time) (h : t < s.leaseEndDate) :
    checkAndResetAnnualKm s t = s := by
  rw [checkAndResetAnnualKm, if_neg (not_le.mpr h)]

/-- If at least one reset fires, the annual kilometre counter ends at zero. -/
theorem reset_km_zero (s : VehicleState) (t : Time) :
    s.leaseEndDate ≤ t → (checkAndResetAnnualKm s t).kmDrivenThisLeaseYear = 0 := by
  induction s, t using checkAndResetAnnualKm.induct with
  | case1 s t h ih =>
    intro _
    rw [checkAndResetAnnualKm, if_pos h]
    by_cases h2 : s.leaseEndDate + daysQ 365 ≤ t
    · exact ih h2
    · rw [checkAndResetAnnualKm, if_neg h2]
  | case2 s t h =>
    intro hle
    exact absurd hle h

/-- If at least one reset fires, the lease cycle number strictly grows. -/
theorem reset_cycle_gt (s : VehicleState) (t : Time) :
    s.leaseEndDate ≤ t → s.leaseCycleNumber < (checkAndResetAnnualKm s t).leaseCycleNumber := by
  induction s, t using checkAndResetAnnualKm.induct with
  | case1 s t h ih =>
    intro _
    rw [checkAndResetAnnualKm, if_pos h]
    by_cases h2 : s.leaseEndDate + daysQ 365 ≤ t
    · exact lt_trans (Nat.lt_succ_self _) (ih h2)
    · rw [checkAndResetAnnualKm, if_neg h2]
      exact Nat.lt_succ_self _
  | case2 s t h =>
    intro hle
    exact absurd hle h

/-- A date in `[lease_end, lease_end + 365d)` makes the reset loop fire exactly
once. -/
theorem reset_single (s : VehicleState) (t : Time) (h1 : s.leaseEndDate ≤ t)
    (h2 : t < s.leaseEndDate + daysQ 365) :
    checkAndResetAnnualKm s t =
      { s with kmDrivenThisLeaseYear := 0
               leaseCycleNumber := s.leaseCycleNumber + 1
               leaseStartDate := s.leaseEndDate
               leaseEndDate := s.leaseEndDate + daysQ 365 } := by
  rw [checkAndResetAnnualKm, if_pos h1, checkAndResetAnnualKm, if_neg (not_le.mpr h2)]

/-- `schedule_service` in closed form. -/
theorem scheduleService_eq (s : VehicleState) (cfg : AssignmentConfig) :
    (scheduleService s cfg).2 =
      if needsService s cfg then
        { s with kmSinceLastService := 0
                 totalServiceCount := s.totalServiceCount + 1
                 totalServiceCost := s.totalServiceCost + cfg.serviceCostPln
                 availableFrom := s.availableFrom + hoursQ cfg.serviceDurationHours }
      else s := by
  unfold scheduleService calculateServiceTime
  by_cases h : needsService s cfg <;> simp [h]

/-- Field effects of the relocation block of `update_state`. -/
theorem applyRelocation_fields (s : VehicleState) (r : Route) (l : RelLookup)
    (cfg : AssignmentConfig) :
    (applyRelocation s r l cfg).currentOdometerKm
        = s.currentOdometerKm + relocationKmFrom s.currentLocationId r l cfg ∧
    (applyRelocation s r l cfg).totalLifetimeKm
        = s.totalLifetimeKm + relocationKmFrom s.currentLocationId r l cfg ∧
    (applyRelocation s r l cfg).kmSinceLastService
        = s.kmSinceLastService + relocationKmFrom s.currentLocationId r l cfg ∧
    (applyRelocation s r l cfg).kmDrivenThisLeaseYear
        = s.kmDrivenThisLeaseYear + relocationKmFrom s.currentLocationId r l cfg ∧
    (applyRelocation s r l cfg).availableFrom = s.availableFrom ∧
    (applyRelocation s r l cfg).leaseEndDate = s.leaseEndDate ∧
    (applyRelocation s r l cfg).leaseCycleNumber = s.leaseCycleNumber := by
  unfold applyRelocation relocationKmFrom
  by_cases h : s.currentLocationId ≠ r.startLocationId.getD 0
  · rcases hget : getCachedRelation s.currentLocationId (r.startLocationId.getD 0) l cfg with
      _ | rel
    · simp [h, hget]
    · simp [h, hget]
  · simp [h]

/-- The pro-rated split always sums to the full route distance. -/
theorem proRate_sum (s : VehicleState) (a b : Time) (km : ℤ) :
    (proRateKmAcrossLeaseYears s a b km).1 + (proRateKmAcrossLeaseYears s a b km).2 = km := by
  unfold proRateKmAcrossLeaseYears
  by_cases h1 : b ≤ s.leaseEndDate
  · simp [h1]
  · by_cases h2 : s.leaseEndDate ≤ a
    · simp [h1, h2]
    · by_cases h3 : b - a ≤ 0
      · simp [h1, h2, h3]
      · simp [h1, h2, h3]

/-- In the genuinely-spanning case the current-year part is the floor of
`km × seconds_in_current_year / total_route_seconds`. -/
theorem proRate_floor (s : VehicleState) (a b : Time) (km : ℤ) (hkm : 0 ≤ km)
    (h1 : a < s.leaseEndDate) (h2 : s.leaseEndDate < b) :
    (proRateKmAcrossLeaseYears s a b km).1
      = ⌊(km : ℚ) * (s.leaseEndDate - a) / (b - a)⌋ := by
  unfold proRateKmAcrossLeaseYears
  have hb : ¬ b ≤ s.leaseEndDate := not_le.mpr h2
  have ha : ¬ s.leaseEndDate ≤ a := not_le.mpr h1
  have hd : ¬ b - a ≤ 0 := by
    have : a < b := lt_trans h1 h2
    intro hc
    linarith
  simp only [hb, ha, hd, if_false, if_neg]
  have hnn : (0:ℚ) ≤ (km : ℚ) * ((s.leaseEndDate - a) / (b - a)) := by
    have h0 : (0:ℚ) < b - a := by
      have : a < b := lt_trans h1 h2
      linarith
    have h0' : (0:ℚ) ≤ s.leaseEndDate - a := by linarith
    have := div_nonneg h0' (le_of_lt h0)
    have hk : (0:ℚ) ≤ (km : ℚ) := by exact_mod_cast hkm
    exact mul_nonneg hk this
  simp only [pyInt, if_pos hnn]
  rw [mul_div_assoc]

/-- If a positive remainder is credited to the next year then the route end
lies at or past the (current) lease end. -/
theorem proRate_pos_end (s : VehicleState) (a b : Time) (km : ℤ)
    (h : 0 < (proRateKmAcrossLeaseYears s a b km).2) :
    s.leaseEndDate ≤ b := by
  unfold proRateKmAcrossLeaseYears at h
  by_cases h1 : b ≤ s.leaseEndDate
  · simp [h1] at h
  · exact le_of_lt (not_le.mp h1)

/-- `schedule_service` never touches the odometer, annual or lifetime
counters, the location, or the lease fields, zeroes the service counter
exactly when a service is due, and then pushes availability by the service
duration. -/
theorem scheduleService_fields (s : VehicleState) (cfg : AssignmentConfig) :
    (scheduleService s cfg).2.currentOdometerKm = s.currentOdometerKm ∧
    (scheduleService s cfg).2.totalLifetimeKm = s.totalLifetimeKm ∧
    (scheduleService s cfg).2.kmDrivenThisLeaseYear = s.kmDrivenThisLeaseYear ∧
    (scheduleService s cfg).2.currentLocationId = s.currentLocationId ∧
    (scheduleService s cfg).2.leaseEndDate = s.leaseEndDate ∧
    (scheduleService s cfg).2.leaseCycleNumber = s.leaseCycleNumber ∧
    (scheduleService s cfg).2.kmSinceLastService
        = (if needsService s cfg then 0 else s.kmSinceLastService) ∧
    (scheduleService s cfg).2.availableFrom
        = (if needsService s cfg then s.availableFrom + hoursQ cfg.serviceDurationHours
           else s.availableFrom) := by
  rw [scheduleService_eq]
  by_cases h : needsService s cfg <;> simp [h]

/-- Field effects of the route-kilometre block when a positive remainder goes
to the next lease year (the second reset fires). -/
theorem applyRouteKm_fields_pos (s : VehicleState) (r : Route)
    (hpos : 0 < (proRateKmAcrossLeaseYears s r.startDatetime r.endDatetime (pyInt r.distanceKm)).2)
    (hle : s.leaseEndDate ≤ r.endDatetime) :
    (applyRouteKm s r).currentOdometerKm = s.currentOdometerKm + pyInt r.distanceKm ∧
    (applyRouteKm s r).totalLifetimeKm = s.totalLifetimeKm + pyInt r.distanceKm ∧
    (applyRouteKm s r).kmSinceLastService = s.kmSinceLastService + pyInt r.distanceKm ∧
    (applyRouteKm s r).availableFrom = s.availableFrom ∧
    (applyRouteKm s r).kmDrivenThisLeaseYear
        = (proRateKmAcrossLeaseYears s r.startDatetime r.endDatetime (pyInt r.distanceKm)).2 ∧
    r.endDatetime < (applyRouteKm s r).leaseEndDate ∧
    s.leaseCycleNumber < (applyRouteKm s r).leaseCycleNumber := by
  unfold applyRouteKm
  simp only [hpos, if_pos]
  set mid : VehicleState :=
    { s with
      currentOdometerKm := s.currentOdometerKm + pyInt r.distanceKm
      totalLifetimeKm := s.totalLifetimeKm + pyInt r.distanceKm
      kmSinceLastService := s.kmSinceLastService + pyInt r.distanceKm
      kmDrivenThisLeaseYear := s.kmDrivenThisLeaseYear +
        (proRateKmAcrossLeaseYears s r.startDatetime r.endDatetime (pyInt r.distanceKm)).1 }
    with hmid
  obtain ⟨q1, q2, q3, q4, -, -, -, -, -, -⟩ := reset_preserves mid r.endDatetime
  have hz : (checkAndResetAnnualKm mid r.endDatetime).kmDrivenThisLeaseYear = 0 :=
    reset_km_zero mid r.endDatetime hle
  have hlt : r.endDatetime < (checkAndResetAnnualKm mid r.endDatetime).leaseEndDate :=
    reset_lt mid r.endDatetime
  have hcy : mid.leaseCycleNumber < (checkAndResetAnnualKm mid r.endDatetime).leaseCycleNumber :=
    reset_cycle_gt mid r.endDatetime hle
  refine ⟨?_, ?_, ?_, ?_, ?_, ?_, ?_⟩ <;>
    simp_all

/-- Field effects of the route-kilometre block when nothing spills over. -/
theorem applyRouteKm_fields_nonpos (s : VehicleState) (r : Route)
    (hnp : (proRateKmAcrossLeaseYears s r.startDatetime r.endDatetime (pyInt r.distanceKm)).2 ≤ 0) :
    (applyRouteKm s r).currentOdometerKm = s.currentOdometerKm + pyInt r.distanceKm ∧
    (applyRouteKm s r).totalLifetimeKm = s.totalLifetimeKm + pyInt r.distanceKm ∧
    (applyRouteKm s r).kmSinceLastService = s.kmSinceLastService + pyInt r.distanceKm ∧
    (applyRouteKm s r).availableFrom = s.availableFrom ∧
    (applyRouteKm s r).kmDrivenThisLeaseYear
        = s.kmDrivenThisLeaseYear
            + (proRateKmAcrossLeaseYears s r.startDatetime r.endDatetime (pyInt r.distanceKm)).1 ∧
    (applyRouteKm s r).leaseEndDate = s.leaseEndDate ∧
    (applyRouteKm s r).leaseCycleNumber = s.leaseCycleNumber := by
  unfold applyRouteKm
  simp [not_lt.mpr hnp]

/-- The needed fields of the state after reset + prune + service, written in
terms of the original state. -/
theorem preRouteState_fields (s : VehicleState) (r : Route) (cfg : AssignmentConfig) :
    ((scheduleService (updateRelocationWindow (checkAndResetAnnualKm s r.startDatetime)
        r.startDatetime cfg) cfg).2.currentOdometerKm = s.currentOdometerKm) ∧
    ((scheduleService (updateRelocationWindow (checkAndResetAnnualKm s r.startDatetime)
        r.startDatetime cfg) cfg).2.totalLifetimeKm = s.totalLifetimeKm) ∧
    ((scheduleService (updateRelocationWindow (checkAndResetAnnualKm s r.startDatetime)
        r.startDatetime cfg) cfg).2.kmDrivenThisLeaseYear
        = (checkAndResetAnnualKm s r.startDatetime).kmDrivenThisLeaseYear) ∧
    ((scheduleService (updateRelocationWindow (checkAndResetAnnualKm s r.startDatetime)
        r.startDatetime cfg) cfg).2.currentLocationId = s.currentLocationId) ∧
    ((scheduleService (updateRelocationWindow (checkAndResetAnnualKm s r.startDatetime)
        r.startDatetime cfg) cfg).2.leaseEndDate
        = (checkAndResetAnnualKm s r.startDatetime).leaseEndDate) ∧
    ((scheduleService (updateRelocationWindow (checkAndResetAnnualKm s r.startDatetime)
        r.startDatetime cfg) cfg).2.leaseCycleNumber
        = (checkAndResetAnnualKm s r.startDatetime).leaseCycleNumber) ∧
    ((scheduleService (updateRelocationWindow (checkAndResetAnnualKm s r.startDatetime)
        r.startDatetime cfg) cfg).2.kmSinceLastService
        = (if needsService s cfg then 0 else s.kmSinceLastService)) ∧
    ((scheduleService (updateRelocationWindow (checkAndResetAnnualKm s r.startDatetime)
        r.startDatetime cfg) cfg).2.availableFrom
        = (if needsService s cfg then s.availableFrom + hoursQ cfg.serviceDurationHours
           else s.availableFrom)) := by
  obtain ⟨p1, p2, p3, p4, p5, p6, p7, p8, p9, p10⟩ := reset_preserves s r.startDatetime
  set s1 := checkAndResetAnnualKm s r.startDatetime with hs1
  set s2 := updateRelocationWindow s1 r.startDatetime cfg with hs2
  have e2O : s2.currentOdometerKm = s1.currentOdometerKm := rfl
  have e2L : s2.totalLifetimeKm = s1.totalLifetimeKm := rfl
  have e2Y : s2.kmDrivenThisLeaseYear = s1.kmDrivenThisLeaseYear := rfl
  have e2P : s2.currentLocationId = s1.currentLocationId := rfl
  have e2E : s2.leaseEndDate = s1.leaseEndDate := rfl
  have e2C : s2.leaseCycleNumber = s1.leaseCycleNumber := rfl
  have e2S : s2.kmSinceLastService = s1.kmSinceLastService := rfl
  have e2A : s2.availableFrom = s1.availableFrom := rfl
  have e2I : s2.serviceIntervalKm = s1.serviceIntervalKm := rfl
  have hns : needsService s2 cfg = needsService s cfg := by
    simp only [needsService, e2S, e2I, p3, p7]
  obtain ⟨t1, t2, t3, t4, t5, t6, t7, t8⟩ := scheduleService_fields s2 cfg
  refine ⟨?_, ?_, ?_, ?_, ?_, ?_, ?_, ?_⟩
  · rw [t1, e2O, p1]
  · rw [t2, e2L, p2]
  · rw [t3, e2Y]
  · rw [t4, e2P, p5]
  · rw [t5, e2E]
  · rw [t6, e2C]
  · rw [t7, hns, e2S, p3]
  · rw [t8, hns, e2A, p4]

/-- The pro-ration reads only the lease end date of the state. -/
theorem proRate_congr (s s' : VehicleState) (h : s.leaseEndDate = s'.leaseEndDate)
    (a b : Time) (km : ℤ) :
    proRateKmAcrossLeaseYears s a b km = proRateKmAcrossLeaseYears s' a b km := by
  unfold proRateKmAcrossLeaseYears
  rw [h]

/-- The observable field effects of one full `update_state` call, phrased
against the original state, the post-reset state, and the pro-rated split. -/
theorem updateState_fields (s : VehicleState) (r : Route) (l : RelLookup)
    (cfg : AssignmentConfig) :
    (updateState s r l cfg).currentOdometerKm
        = s.currentOdometerKm + relocationKmFrom s.currentLocationId r l cfg
          + pyInt r.distanceKm ∧
    (updateState s r l cfg).totalLifetimeKm
        = s.totalLifetimeKm + relocationKmFrom s.currentLocationId r l cfg
          + pyInt r.distanceKm ∧
    (updateState s r l cfg).kmSinceLastService
        = (if needsService s cfg then 0 else s.kmSinceLastService)
          + relocationKmFrom s.currentLocationId r l cfg + pyInt r.distanceKm ∧
    (updateState s r l cfg).availableFrom = r.endDatetime ∧
    (0 < (proRateKmAcrossLeaseYears (checkAndResetAnnualKm s r.startDatetime)
            r.startDatetime r.endDatetime (pyInt r.distanceKm)).2 →
        (updateState s r l cfg).kmDrivenThisLeaseYear
            = (proRateKmAcrossLeaseYears (checkAndResetAnnualKm s r.startDatetime)
                r.startDatetime r.endDatetime (pyInt r.distanceKm)).2 ∧
        r.endDatetime < (updateState s r l cfg).leaseEndDate ∧
        (checkAndResetAnnualKm s r.startDatetime).leaseCycleNumber
            < (updateState s r l cfg).leaseCycleNumber) ∧
    ((proRateKmAcrossLeaseYears (checkAndResetAnnualKm s r.startDatetime)
            r.startDatetime r.endDatetime (pyInt r.distanceKm)).2 ≤ 0 →
        (updateState s r l cfg).kmDrivenThisLeaseYear
            = (checkAndResetAnnualKm s r.startDatetime).kmDrivenThisLeaseYear
              + relocationKmFrom s.currentLocationId r l cfg
              + (proRateKmAcrossLeaseYears (checkAndResetAnnualKm s r.startDatetime)
                  r.startDatetime r.endDatetime (pyInt r.distanceKm)).1 ∧
        (updateState s r l cfg).leaseEndDate
            = (checkAndResetAnnualKm s r.startDatetime).leaseEndDate ∧
        (updateState s r l cfg).leaseCycleNumber
            = (checkAndResetAnnualKm s r.startDatetime).leaseCycleNumber) := by
  obtain ⟨u1, u2, u3, u4, u5, u6, u7, u8⟩ := preRouteState_fields s r cfg
  set s3 := (scheduleService (updateRelocationWindow (checkAndResetAnnualKm s r.startDatetime)
      r.startDatetime cfg) cfg).2 with hs3
  obtain ⟨v1, v2, v3, v4, v5, v6, v7⟩ := applyRelocation_fields s3 r l cfg
  set s4 := applyRelocation s3 r l cfg with hs4
  set s5 : VehicleState := { s4 with currentLocationId := r.endLocationId.getD 0 } with hs5
  have w1 : s5.currentOdometerKm = s4.currentOdometerKm := rfl
  have w2 : s5.totalLifetimeKm = s4.totalLifetimeKm := rfl
  have w3 : s5.kmSinceLastService = s4.kmSinceLastService := rfl
  have w4 : s5.kmDrivenThisLeaseYear = s4.kmDrivenThisLeaseYear := rfl
  have w5 : s5.availableFrom = s4.availableFrom := rfl
  have w6 : s5.leaseEndDate = s4.leaseEndDate := rfl
  have w7 : s5.leaseCycleNumber = s4.leaseCycleNumber := rfl
  have hE5 : s5.leaseEndDate = (checkAndResetAnnualKm s r.startDatetime).leaseEndDate := by
    rw [w6, v6, u5]
  have hpr : proRateKmAcrossLeaseYears s5 r.startDatetime r.endDatetime (pyInt r.distanceKm)
      = proRateKmAcrossLeaseYears (checkAndResetAnnualKm s r.startDatetime)
          r.startDatetime r.endDatetime (pyInt r.distanceKm) :=
    proRate_congr _ _ hE5 _ _ _
  have hreloc4 : relocationKmFrom s3.currentLocationId r l cfg
      = relocationKmFrom s.currentLocationId r l cfg := by rw [u4]
  have hupd : updateState s r l cfg
      = { applyRouteKm s5 r with
          availableFrom := r.endDatetime
          lastRouteId := some r.id
          routesAssigned := (applyRouteKm s5 r).routesAssigned + 1 } := rfl
  have z1 : (updateState s r l cfg).currentOdometerKm = (applyRouteKm s5 r).currentOdometerKm := by
    rw [hupd]
  have z2 : (updateState s r l cfg).totalLifetimeKm = (applyRouteKm s5 r).totalLifetimeKm := by
    rw [hupd]
  have z3 : (updateState s r l cfg).kmSinceLastService
      = (applyRouteKm s5 r).kmSinceLastService := by rw [hupd]
  have z4 : (updateState s r l cfg).kmDrivenThisLeaseYear
      = (applyRouteKm s5 r).kmDrivenThisLeaseYear := by rw [hupd]
  have z5 : (updateState s r l cfg).availableFrom = r.endDatetime := by rw [hupd]
  have z6 : (updateState s r l cfg).leaseEndDate = (applyRouteKm s5 r).leaseEndDate := by
    rw [hupd]
  have z7 : (updateState s r l cfg).leaseCycleNumber
      = (applyRouteKm s5 r).leaseCycleNumber := by rw [hupd]
  rcases le_or_lt
      ((proRateKmAcrossLeaseYears (checkAndResetAnnualKm s r.startDatetime)
        r.startDatetime r.endDatetime (pyInt r.distanceKm)).2) 0 with hc | hc
  · have hnp : (proRateKmAcrossLeaseYears s5 r.startDatetime r.endDatetime
        (pyInt r.distanceKm)).2 ≤ 0 := by rw [hpr]; exact hc
    obtain ⟨a1, a2, a3, a4, a5, a6, a7⟩ := applyRouteKm_fields_nonpos s5 r hnp
    refine ⟨?_, ?_, ?_, z5, ?_, ?_⟩
    · rw [z1, a1, w1, v1, hreloc4, u1]
    · rw [z2, a2, w2, v2, hreloc4, u2]
    · rw [z3, a3, w3, v3, hreloc4, u7]
    · intro hpos
      exact absurd hpos (not_lt.mpr hc)
    · intro _
      refine ⟨?_, ?_, ?_⟩
      · rw [z4, a5, hpr, w4, v4, hreloc4, u3]
      · rw [z6, a6, hE5]
      · rw [z7, a7, w7, v7, u6]
  · have hpos : 0 < (proRateKmAcrossLeaseYears s5 r.startDatetime r.endDatetime
        (pyInt r.distanceKm)).2 := by rw [hpr]; exact hc
    have hle : s5.leaseEndDate ≤ r.endDatetime :=
      proRate_pos_end s5 r.startDatetime r.endDatetime (pyInt r.distanceKm) hpos
    obtain ⟨a1, a2, a3, a4, a5, a6, a7⟩ := applyRouteKm_fields_pos s5 r hpos hle
    refine ⟨?_, ?_, ?_, z5, ?_, ?_⟩
    · rw [z1, a1, w1, v1, hreloc4, u1]
    · rw [z2, a2, w2, v2, hreloc4, u2]
    · rw [z3, a3, w3, v3, hreloc4, u7]
    · intro _
      refine ⟨?_, ?_, ?_⟩
      · rw [z4, a5, hpr]
      · rw [z6]; exact a6
      · rw [z7]
        have : s5.leaseCycleNumber = (checkAndResetAnnualKm s r.startDatetime).leaseCycleNumber := by
          rw [w7, v7, u6]
        rw [← this]
        exact a7
    · intro hnp
      exact absurd hc (not_lt.mpr hnp)

/-- `int()` of a nonnegative quantity is nonnegative. -/
theorem pyInt_nonneg (q : ℚ) (h : 0 ≤ q) : 0 ≤ pyInt q := by
  unfold pyInt
  rw [if_pos h]
  exact Int.floor_nonneg.mpr h

/-- The popped entry comes from the pool. -/
theorem popMinAux_fst (e : Entry) (xs : List Entry) :
    (popMinAux e xs).1 = e ∨ (popMinAux e xs).1 ∈ xs := by
  induction xs generalizing e with
  | nil => exact Or.inl rfl
  | cons x xs ih =>
    rw [popMinAux]
    split
    · show (popMinAux e xs).1 = e ∨ (popMinAux e xs).1 ∈ x :: xs
      rcases ih e with h1 | h1
      · exact Or.inl h1
      · exact Or.inr (List.mem_cons_of_mem x h1)
    · show (popMinAux x xs).1 = e ∨ (popMinAux x xs).1 ∈ x :: xs
      rcases ih x with h1 | h1
      · exact Or.inr (by rw [h1]; exact List.mem_cons_self x xs)
      · exact Or.inr (List.mem_cons_of_mem x h1)

/-- The remaining entries come from the pool. -/
theorem popMinAux_snd (e : Entry) (xs : List Entry) :
    ∀ y ∈ (popMinAux e xs).2, y = e ∨ y ∈ xs := by
  induction xs generalizing e with
  | nil =>
    intro y hy
    simp [popMinAux] at hy
  | cons x xs ih =>
    intro y hy
    rw [popMinAux] at hy
    split at hy
    · replace hy : y ∈ x :: (popMinAux e xs).2 := hy
      rcases List.mem_cons.mp hy with h1 | h1
      · exact Or.inr (by rw [h1]; exact List.mem_cons_self x xs)
      · rcases ih e y h1 with h2 | h2
        · exact Or.inl h2
        · exact Or.inr (List.mem_cons_of_mem x h2)
    · replace hy : y ∈ e :: (popMinAux x xs).2 := hy
      rcases List.mem_cons.mp hy with h1 | h1
      · exact Or.inl h1
      · rcases ih x y h1 with h2 | h2
        · exact Or.inr (by rw [h2]; exact List.mem_cons_self x xs)
        · exact Or.inr (List.mem_cons_of_mem x h2)

/-- The Dijkstra loop only ever reports a nonnegative summed distance when
all edges carry nonnegative distances. -/
theorem dijkstraLoop_dist_nonneg (adj : ℕ → List (ℕ × ℚ × ℚ)) (toLoc maxHops : ℕ)
    (hadj : ∀ x, ∀ nd ∈ adj x, 0 ≤ nd.2.1) :
    ∀ (fuel : ℕ) (pq : List Entry) (visited : List ℕ),
      (∀ en ∈ pq, 0 ≤ en.dist) →
      (dijkstraLoop adj toLoc maxHops fuel pq visited).found = true →
      0 ≤ (dijkstraLoop adj toLoc maxHops fuel pq visited).distanceKm := by
  intro fuel
  induction fuel with
  | zero =>
    intro pq visited _ hfound
    simp [dijkstraLoop] at hfound
  | succ fuel ih =>
    intro pq visited hpq hfound
    rcases pq with _ | ⟨e0, pqRest⟩
    · simp [dijkstraLoop] at hfound
    · have hp1 : 0 ≤ (popMinAux e0 pqRest).1.dist := by
        rcases popMinAux_fst e0 pqRest with h | h
        · rw [h]
          exact hpq e0 (List.mem_cons_self e0 pqRest)
        · exact hpq _ (List.mem_cons_of_mem e0 h)
      have hp2 : ∀ en ∈ (popMinAux e0 pqRest).2, 0 ≤ en.dist := by
        intro en hen
        rcases popMinAux_snd e0 pqRest en hen with h | h
        · rw [h]
          exact hpq e0 (List.mem_cons_self e0 pqRest)
        · exact hpq _ (List.mem_cons_of_mem e0 h)
      rw [dijkstraLoop] at hfound ⊢
      by_cases hv : (popMinAux e0 pqRest).1.current ∈ visited
      · rw [if_pos hv] at hfound ⊢
        exact ih _ _ hp2 hfound
      · rw [if_neg hv] at hfound ⊢
        by_cases ht : (popMinAux e0 pqRest).1.current = toLoc
        · rw [if_pos ht] at hfound ⊢
          exact hp1
        · rw [if_neg ht] at hfound ⊢
          by_cases hh : maxHops ≤ (popMinAux e0 pqRest).1.hops
          · rw [if_pos hh] at hfound ⊢
            exact ih _ _ hp2 hfound
          · rw [if_neg hh] at hfound ⊢
            refine ih _ _ ?_ hfound
            intro en hen
            rcases List.mem_append.mp hen with hmem | hmem
            · exact hp2 en hmem
            · simp only [List.mem_filterMap] at hmem
              obtain ⟨nd, hnd, hsome⟩ := hmem
              by_cases hin : nd.1 ∈ (popMinAux e0 pqRest).1.current :: visited
              · rw [if_pos hin] at hsome
                exact absurd hsome (by simp)
              · rw [if_neg hin] at hsome
                have hd := hadj (popMinAux e0 pqRest).1.current nd hnd
                rw [← Option.some.inj hsome]
                exact add_nonneg hp1 hd

/-- All adjacency edges inherit nonnegative distances from the relations. -/
theorem adjacency_dist_nonneg (l : RelLookup) (hl : ∀ e ∈ l, 0 ≤ e.2.dist) (x : ℕ) :
    ∀ nd ∈ adjacency l x, 0 ≤ nd.2.1 := by
  suffices h : ∀ (ls : RelLookup) (acc : List (ℕ × ℚ × ℚ)),
      (∀ e ∈ ls, 0 ≤ e.2.dist) → (∀ nd ∈ acc, 0 ≤ nd.2.1) →
      ∀ nd ∈ ls.foldl (fun acc e =>
        let acc := if e.1.1 = x then acc ++ [(e.1.2, e.2.dist, e.2.time / 60)] else acc
        if e.1.2 = x then acc ++ [(e.1.1, e.2.dist, e.2.time / 60)] else acc) acc,
        0 ≤ nd.2.1 by
    intro nd hnd
    exact h l [] hl (by simp) nd hnd
  intro ls
  induction ls with
  | nil =>
    intro acc _ h2 nd hnd
    simpa using h2 nd hnd
  | cons e ls ih =>
    intro acc h1 h2 nd hnd
    simp only [List.foldl_cons] at hnd
    refine ih _ (fun e' he' => h1 e' (List.mem_cons_of_mem e he')) ?_ nd hnd
    intro nd' hnd'
    have hde : 0 ≤ e.2.dist := h1 e (List.mem_cons_self e ls)
    by_cases hx1 : e.1.1 = x
    · by_cases hx2 : e.1.2 = x
      · simp only [hx1, hx2, if_true] at hnd'
        rcases List.mem_append.mp hnd' with hmem | hmem
        · rcases List.mem_append.mp hmem with hmem2 | hmem2
          · exact h2 nd' hmem2
          · simp only [List.mem_singleton] at hmem2
            rw [hmem2]
            exact hde
        · simp only [List.mem_singleton] at hmem
          rw [hmem]
          exact hde
      · simp only [hx1, hx2, if_true, if_false] at hnd'
        rcases List.mem_append.mp hnd' with hmem | hmem
        · exact h2 nd' hmem
        · simp only [List.mem_singleton] at hmem
          rw [hmem]
          exact hde
    · by_cases hx2 : e.1.2 = x
      · simp only [hx1, hx2, if_true, if_false] at hnd'
        rcases List.mem_append.mp hnd' with hmem | hmem
        · exact h2 nd' hmem
        · simp only [List.mem_singleton] at hmem
          rw [hmem]
          exact hde
      · simp only [hx1, hx2, if_false] at hnd'
        exact h2 nd' hnd'

/-- A successful dictionary hit returns a stored relation. -/
theorem lookupPair_dist_nonneg (l : RelLookup) (hl : ∀ e ∈ l, 0 ≤ e.2.dist)
    (k : ℕ × ℕ) (rel : LocationRelation) (h : lookupPair l k = some rel) :
    0 ≤ rel.dist := by
  unfold lookupPair at h
  rcases hf : l.find? (fun e => e.1 = k) with _ | p
  · rw [hf] at h
    simp at h
  · rw [hf] at h
    simp only [Option.map] at h
    have hmem := hl p (List.mem_of_find?_eq_some hf)
    rw [← Option.some.inj h]
    exact hmem

/-- Any found path has nonnegative total distance. -/
theorem findShortestPath_dist_nonneg (a b : ℕ) (l : RelLookup) (maxHops : ℕ)
    (hl : ∀ e ∈ l, 0 ≤ e.2.dist) :
    (findShortestPath a b l maxHops).found = true →
      0 ≤ (findShortestPath a b l maxHops).distanceKm := by
  unfold findShortestPath
  by_cases hab : a = b
  · rw [if_pos hab]
    intro _
    exact le_refl 0
  · rw [if_neg hab]
    rcases h1 : lookupPair l (a, b) with _ | d
    · rcases h2 : lookupPair l (b, a) with _ | d
      · intro hf
        refine dijkstraLoop_dist_nonneg (adjacency l) b maxHops
          (adjacency_dist_nonneg l hl) _ _ _ ?_ hf
        intro en hen
        simp only [List.mem_singleton] at hen
        rw [hen]
      · intro _
        exact lookupPair_dist_nonneg l hl (b, a) d h2
    · intro _
      exact lookupPair_dist_nonneg l hl (a, b) d h1

/-- Every relation the oracle returns carries a nonnegative distance when the
stored relations do. -/
theorem getRelation_dist_nonneg (a b : ℕ) (l : RelLookup) (up : Bool)
    (rel : LocationRelation) (hl : ∀ e ∈ l, 0 ≤ e.2.dist)
    (h : getRelation a b l up = some rel) : 0 ≤ rel.dist := by
  unfold getRelation at h
  by_cases hab : a = b
  · rw [if_pos hab] at h
    rw [← Option.some.inj h]
  · rw [if_neg hab] at h
    rcases h1 : lookupPair l (a, b) with _ | d
    · rw [h1] at h
      rcases h2 : lookupPair l (b, a) with _ | d
      · rw [h2] at h
        by_cases hup : up = true
        · rw [if_pos hup] at h
          by_cases hf : (findShortestPath a b l 3).found = true
          · rw [if_pos hf] at h
            rw [← Option.some.inj h]
            exact findShortestPath_dist_nonneg a b l 3 hl hf
          · rw [if_neg hf] at h
            simp at h
        · rw [if_neg hup] at h
          simp at h
      · rw [h2] at h
        rw [← Option.some.inj h]
        exact lookupPair_dist_nonneg l hl (b, a) d h2
    · rw [h1] at h
      rw [← Option.some.inj h]
      exact lookupPair_dist_nonneg l hl (a, b) d h1

/-- The relocation kilometres added by `update_state` are nonnegative. -/
theorem relocationKmFrom_nonneg (loc : ℕ) (r : Route) (l : RelLookup)
    (cfg : AssignmentConfig) (hl : ∀ e ∈ l, 0 ≤ e.2.dist) :
    0 ≤ relocationKmFrom loc r l cfg := by
  unfold relocationKmFrom getCachedRelation
  by_cases h : loc ≠ r.startLocationId.getD 0
  · rw [if_pos h, if_neg h]
    rcases hget : getRelation loc (r.startLocationId.getD 0) l cfg.usePathfinding with _ | rel
    · exact le_refl 0
    · exact pyInt_nonneg _ (getRelation_dist_nonneg _ _ _ _ _ hl hget)
  · rw [if_neg h]

/-- A passing contract gate bounds the post-route lifetime kilometres. -/
theorem contractGate_none_bound (s : VehicleState) (r : Route) (l : RelLookup)
    (cfg : AssignmentConfig) (cap : ℤ) (hcap : s.totalContractLimitKm = some cap)
    (hne : cap ≠ 0) (h : contractGate s r l cfg (r.startLocationId.getD 0) = none) :
    s.totalLifetimeKm + pyInt r.distanceKm
      + relocationKmFrom s.currentLocationId r l cfg ≤ cap := by
  unfold contractGate at h
  rw [hcap] at h
  simp only [hne, if_false] at h
  unfold relocationKmFrom
  by_cases h2 : s.currentLocationId ≠ r.startLocationId.getD 0
  · rw [if_pos h2]
    rw [if_pos h2] at h
    rcases hget : getCachedRelation s.currentLocationId (r.startLocationId.getD 0) l cfg with
      _ | rel
    · rw [hget] at h
      have h' : (if cap < s.totalLifetimeKm + pyInt r.distanceKm
          then some FailReason.contractLimit else none) = none := h
      show s.totalLifetimeKm + pyInt r.distanceKm + 0 ≤ cap
      split at h'
      · exact absurd h' (by simp)
      · omega
    · rw [hget] at h
      have h' : (if cap < s.totalLifetimeKm + pyInt r.distanceKm + pyInt rel.dist
          then some FailReason.contractLimit else none) = none := h
      show s.totalLifetimeKm + pyInt r.distanceKm + pyInt rel.dist ≤ cap
      split at h'
      · exact absurd h' (by simp)
      · omega
  · rw [if_neg h2]
    rw [if_neg h2] at h
    have h' : (if cap < s.totalLifetimeKm + pyInt r.distanceKm
        then some FailReason.contractLimit else none) = none := h
    show s.totalLifetimeKm + pyInt r.distanceKm + 0 ≤ cap
    split at h'
    · exact absurd h' (by simp)
    · omega

/-- The numeric facts contained in a passing route validation. -/
theorem validateRoute_facts (r : Route) (hv : validateRoute r = true) :
    0 < r.distanceKm ∧ r.startDatetime < r.endDatetime := by
  unfold validateRoute at hv
  simp only [Bool.and_eq_true, decide_eq_true_eq] at hv
  exact ⟨hv.1.2, hv.2⟩

/-- A route ending by the lease end is fully in the current year. -/
theorem proRate_all_current (s : VehicleState) (a b : Time) (km : ℤ)
    (h : b ≤ s.leaseEndDate) :
    proRateKmAcrossLeaseYears s a b km = (km, 0) := by
  unfold proRateKmAcrossLeaseYears
  simp [h]

/-! # Claim theorems -/

/-! ## C10: driver initialisation -/

/-- **C10.**  At driver initialisation, every vehicle's created simulation
state sets `km_since_last_service` to 0 and `km_driven_this_lease_year` to 0,
and sets total lifetime km equal to the vehicle's current odometer reading —
regardless of the vehicle's service or lease history in the input data (the
state is a function of `id`, location, odometer, limits and lease dates
only). -/
theorem claim10_initial_counters (vehicles : List Vehicle) (startDate : Time) :
    ∀ e ∈ initStates vehicles startDate,
      e.2.kmSinceLastService = 0 ∧
      e.2.kmDrivenThisLeaseYear = 0 ∧
      ∃ v ∈ vehicles, e.1 = v.id ∧
        e.2.totalLifetimeKm = v.currentOdometerKm ∧
        e.2 = initialVehicleState v (startDate - hoursQ 24) := by
  intro e he
  simp only [initStates, List.mem_map] at he
  obtain ⟨v, hv, rfl⟩ := he
  exact ⟨rfl, rfl, v, hv, rfl, rfl, rfl⟩

theorem claim10_initial_counters_witness :
    (c10Vehicle.id, initialVehicleState c10Vehicle ((100 : ℚ) - hoursQ 24)).2.kmSinceLastService = 0 ∧
    (c10Vehicle.id, initialVehicleState c10Vehicle ((100 : ℚ) - hoursQ 24)).2.kmDrivenThisLeaseYear = 0 ∧
    ∃ v ∈ [c10Vehicle], (c10Vehicle.id, initialVehicleState c10Vehicle ((100 : ℚ) - hoursQ 24)).1 = v.id ∧
      (c10Vehicle.id, initialVehicleState c10Vehicle ((100 : ℚ) - hoursQ 24)).2.totalLifetimeKm = v.currentOdometerKm ∧
      (c10Vehicle.id, initialVehicleState c10Vehicle ((100 : ℚ) - hoursQ 24)).2 = initialVehicleState v ((100 : ℚ) - hoursQ 24) :=
  claim10_initial_counters [c10Vehicle] 100
    (c10Vehicle.id, initialVehicleState c10Vehicle ((100 : ℚ) - hoursQ 24))
    (by simp [initStates])

/-! ## C8: time unit of the synthetic multi-hop relation -/

/-- **C8.**  The claim (and §4.1 of the spec) require every oracle relation to
carry its `time` in minutes, the synthetic multi-hop relation carrying the
summed weights of the path's edges.  The code violates this: for the two-hop
path `1→2→3` whose edges are 60 minutes each, the synthetic relation stores
`dist = 120` (correctly summed) but `time = 2` — the summed minutes divided
by 60, i.e. hours — because `find_shortest_path` converts to hours and
`get_relation` copies `time_hours` into the minutes field (the documented
unit contract of `relation_helper.calculate_relocation_cost` and of
`constraints.is_time_feasible`, which apply `/60` resp. `timedelta(minutes=…)`
to that field). -/
theorem claim8_synthetic_relation_time_in_hours :
    getRelation 1 3 c8Lookup true = some ⟨-1, 1, 3, 120, 2⟩ ∧ (2 : ℚ) ≠ 60 + 60 := by
  constructor
  · norm_num [getRelation, lookupPair, c8Lookup, findShortestPath, dijkstraLoop,
      dijkstraFuel, adjacency, popMinAux, entryLe, listLtNat]
  · norm_num

/-! ## C3: strict swap-policy gate -/

/-- **C3.**  If a relocation is required and the strict feasibility pass
accepts the pair, then the number of relocation-history entries whose
timestamp lies within the last `swap_period` days of the route's start (the
count surviving read-time pruning) is strictly below
`max_swaps_per_period`.  (The code gates on the length of the rolling window
list, of which the pruned count is a lower part.) -/
theorem claim3_swap_budget (s : VehicleState) (r : Route) (l : RelLookup)
    (cfg : AssignmentConfig)
    (hreloc : s.currentLocationId ≠ r.startLocationId.getD 0)
    (hacc : checkFeasibility s r l cfg = none) :
    ((s.relocations.filter
        (fun e => r.startDatetime - daysQ cfg.swapPeriodDays ≤ e.1)).length)
      < cfg.maxSwapsPerPeriod := by
  obtain ⟨-, -, hsw, -⟩ := (checkFeasibility_none_iff s r l cfg).mp hacc
  obtain ⟨rel, -, -, hlen⟩ := hsw hreloc
  exact lt_of_le_of_lt (List.length_filter_le _ _) hlen

theorem claim3_swap_budget_witness :
    ((c3State.relocations.filter
        (fun e => c3Route.startDatetime - daysQ c3Cfg.swapPeriodDays ≤ e.1)).length)
      < c3Cfg.maxSwapsPerPeriod :=
  claim3_swap_budget c3State c3Route c3Lookup c3Cfg (by norm_num [c3State, c3Route])
    (by norm_num [checkFeasibility, validateRoute, c3State, c3Route, c3Cfg, c3Lookup,
      availabilityAfterService, calculateServiceTime, needsService, getCachedRelation,
      getRelation, lookupPair, contractGate, minutesQ, hoursQ, daysQ])

/-! ## C2: timing gates of the feasibility check -/

/-- **C2.**  For a valid route, `check_feasibility` passes its timing gates —
it rejects with none of `notAvailable` / `noPath` / `cannotReach` — exactly
when the effective availability (`available_from`, increased by
`service_duration` when `km_since_service` already exceeds
`service_interval + service_tolerance`) is no later than `route.start_time`
and, when the vehicle is away from the route's start, the oracle yields a
relation whose `travel_minutes` added to the effective availability still
meets `route.start_time`.  Both comparisons are `≤`, so arrival exactly at
`start_time` is feasible. -/
theorem claim2_timing_gates (s : VehicleState) (r : Route) (l : RelLookup)
    (cfg : AssignmentConfig) (hv : validateRoute r = true) :
    (checkFeasibility s r l cfg ≠ some .notAvailable ∧
     checkFeasibility s r l cfg ≠ some .noPath ∧
     checkFeasibility s r l cfg ≠ some .cannotReach) ↔
    ((if s.serviceIntervalKm + cfg.serviceToleranceKm < s.kmSinceLastService
        then s.availableFrom + hoursQ cfg.serviceDurationHours
        else s.availableFrom) ≤ r.startDatetime ∧
     (s.currentLocationId ≠ r.startLocationId.getD 0 →
       ∃ rel,
         getCachedRelation s.currentLocationId (r.startLocationId.getD 0) l cfg = some rel ∧
         (if s.serviceIntervalKm + cfg.serviceToleranceKm < s.kmSinceLastService
            then s.availableFrom + hoursQ cfg.serviceDurationHours
            else s.availableFrom) + minutesQ rel.time ≤ r.startDatetime)) := by
  rw [← availabilityAfterService_eq s cfg]
  unfold checkFeasibility
  by_cases h1 : r.startDatetime < availabilityAfterService s cfg
  · simp [hv, h1, not_le.mpr h1]
  · by_cases h2 : s.currentLocationId ≠ r.startLocationId.getD 0
    · rcases hget : getCachedRelation s.currentLocationId (r.startLocationId.getD 0) l cfg with
        _ | rel
      · simp [hv, h1, h2, hget]
      · by_cases h3 : r.startDatetime < availabilityAfterService s cfg + minutesQ rel.time
        · simp [hv, h1, h2, hget, h3, not_le.mpr h3, not_lt.mp h1]
        · by_cases h4 : cfg.maxSwapsPerPeriod ≤ s.relocations.length
          · simp [hv, h1, h2, hget, h3, h4, not_lt.mp h1, not_lt.mp h3]
          · rcases contractGate_cases s r l cfg (r.startLocationId.getD 0) with hcg | hcg <;>
              simp [hv, h1, h2, hget, h3, h4, hcg, not_lt.mp h1, not_lt.mp h3]
    · rcases contractGate_cases s r l cfg (r.startLocationId.getD 0) with hcg | hcg <;>
        simp [hv, h1, h2, hcg, not_lt.mp h1]

theorem claim2_timing_gates_witness :
    (checkFeasibility c3State c3Route c3Lookup c3Cfg ≠ some .notAvailable ∧
     checkFeasibility c3State c3Route c3Lookup c3Cfg ≠ some .noPath ∧
     checkFeasibility c3State c3Route c3Lookup c3Cfg ≠ some .cannotReach) ↔
    ((if c3State.serviceIntervalKm + c3Cfg.serviceToleranceKm < c3State.kmSinceLastService
        then c3State.availableFrom + hoursQ c3Cfg.serviceDurationHours
        else c3State.availableFrom) ≤ c3Route.startDatetime ∧
     (c3State.currentLocationId ≠ c3Route.startLocationId.getD 0 →
       ∃ rel,
         getCachedRelation c3State.currentLocationId (c3Route.startLocationId.getD 0)
             c3Lookup c3Cfg = some rel ∧
         (if c3State.serviceIntervalKm + c3Cfg.serviceToleranceKm < c3State.kmSinceLastService
            then c3State.availableFrom + hoursQ c3Cfg.serviceDurationHours
            else c3State.availableFrom) + minutesQ rel.time ≤ c3Route.startDatetime)) :=
  claim2_timing_gates c3State c3Route c3Lookup c3Cfg (by norm_num [validateRoute, c3Route])

/-! ## C1: the state mutator -/

/-- **C1.**  For every accepted-shape update (`update_state` on a valid
route): the lease-year reset loop runs first at `route.start_time` (afterwards
the start lies before the lease end; if it was at or past the old lease end
the annual counter was zeroed and the cycle number advanced; otherwise the
loop was a no-op); the route distance is split as
`(km_in_current_year, remainder)` summing to the full distance, with
`km_in_current_year = ⌊km × seconds_in_current_year / total_route_seconds⌋`
whenever the route truly spans the (post-reset) boundary; a positive
remainder is credited to the next lease year after re-running the reset at
`route.end_time` (the counter then holds exactly the remainder and the lease
end moved past the route end); the full route distance plus any relocation
distance is always added to odometer, lifetime and since-service kilometres;
and a route starting exactly at `lease_end` (and ending within the next lease
year) contributes entirely to the next lease year, with the cycle number
advanced by one. -/
theorem claim1_update_state (s : VehicleState) (r : Route) (l : RelLookup)
    (cfg : AssignmentConfig) (hv : validateRoute r = true) :
    (r.startDatetime < (checkAndResetAnnualKm s r.startDatetime).leaseEndDate) ∧
    (s.leaseEndDate ≤ r.startDatetime →
      (checkAndResetAnnualKm s r.startDatetime).kmDrivenThisLeaseYear = 0 ∧
      s.leaseCycleNumber < (checkAndResetAnnualKm s r.startDatetime).leaseCycleNumber) ∧
    (r.startDatetime < s.leaseEndDate → checkAndResetAnnualKm s r.startDatetime = s) ∧
    (updateState s r l cfg).currentOdometerKm
        = s.currentOdometerKm + relocationKmFrom s.currentLocationId r l cfg
          + pyInt r.distanceKm ∧
    (updateState s r l cfg).totalLifetimeKm
        = s.totalLifetimeKm + relocationKmFrom s.currentLocationId r l cfg
          + pyInt r.distanceKm ∧
    (updateState s r l cfg).kmSinceLastService
        = (if needsService s cfg then 0 else s.kmSinceLastService)
          + relocationKmFrom s.currentLocationId r l cfg + pyInt r.distanceKm ∧
    (proRateKmAcrossLeaseYears (checkAndResetAnnualKm s r.startDatetime)
        r.startDatetime r.endDatetime (pyInt r.distanceKm)).1
      + (proRateKmAcrossLeaseYears (checkAndResetAnnualKm s r.startDatetime)
        r.startDatetime r.endDatetime (pyInt r.distanceKm)).2 = pyInt r.distanceKm ∧
    ((checkAndResetAnnualKm s r.startDatetime).leaseEndDate < r.endDatetime →
      (proRateKmAcrossLeaseYears (checkAndResetAnnualKm s r.startDatetime)
          r.startDatetime r.endDatetime (pyInt r.distanceKm)).1
        = ⌊(pyInt r.distanceKm : ℚ)
            * ((checkAndResetAnnualKm s r.startDatetime).leaseEndDate - r.startDatetime)
            / (r.endDatetime - r.startDatetime)⌋) ∧
    (0 < (proRateKmAcrossLeaseYears (checkAndResetAnnualKm s r.startDatetime)
            r.startDatetime r.endDatetime (pyInt r.distanceKm)).2 →
      (updateState s r l cfg).kmDrivenThisLeaseYear
          = (proRateKmAcrossLeaseYears (checkAndResetAnnualKm s r.startDatetime)
              r.startDatetime r.endDatetime (pyInt r.distanceKm)).2 ∧
      r.endDatetime < (updateState s r l cfg).leaseEndDate) ∧
    ((proRateKmAcrossLeaseYears (checkAndResetAnnualKm s r.startDatetime)
            r.startDatetime r.endDatetime (pyInt r.distanceKm)).2 ≤ 0 →
      (updateState s r l cfg).kmDrivenThisLeaseYear
          = (checkAndResetAnnualKm s r.startDatetime).kmDrivenThisLeaseYear
            + relocationKmFrom s.currentLocationId r l cfg
            + (proRateKmAcrossLeaseYears (checkAndResetAnnualKm s r.startDatetime)
                r.startDatetime r.endDatetime (pyInt r.distanceKm)).1) ∧
    (r.startDatetime = s.leaseEndDate → r.endDatetime ≤ s.leaseEndDate + daysQ 365 →
      (updateState s r l cfg).kmDrivenThisLeaseYear
          = relocationKmFrom s.currentLocationId r l cfg + pyInt r.distanceKm ∧
      (updateState s r l cfg).leaseCycleNumber = s.leaseCycleNumber + 1) := by
  obtain ⟨hdist, hse⟩ := validateRoute_facts r hv
  obtain ⟨f1, f2, f3, f4, f5, f6⟩ := updateState_fields s r l cfg
  refine ⟨reset_lt s r.startDatetime,
    fun h => ⟨reset_km_zero s r.startDatetime h, reset_cycle_gt s r.startDatetime h⟩,
    fun h => reset_id s r.startDatetime h, f1, f2, f3, proRate_sum _ _ _ _, ?_, ?_, ?_, ?_⟩
  · intro hspan
    exact proRate_floor _ _ _ _ (pyInt_nonneg _ (le_of_lt hdist))
      (reset_lt s r.startDatetime) hspan
  · intro hpos
    obtain ⟨y1, y2, -⟩ := f5 hpos
    exact ⟨y1, y2⟩
  · intro hnp
    exact (f6 hnp).1
  · intro hstart hend
    have hone : checkAndResetAnnualKm s r.startDatetime =
        { s with kmDrivenThisLeaseYear := 0
                 leaseCycleNumber := s.leaseCycleNumber + 1
                 leaseStartDate := s.leaseEndDate
                 leaseEndDate := s.leaseEndDate + daysQ 365 } :=
      reset_single s r.startDatetime (le_of_eq hstart.symm)
        (lt_of_lt_of_le hse hend)
    have hE1 : (checkAndResetAnnualKm s r.startDatetime).leaseEndDate
        = s.leaseEndDate + daysQ 365 := by rw [hone]
    have hprz : proRateKmAcrossLeaseYears (checkAndResetAnnualKm s r.startDatetime)
        r.startDatetime r.endDatetime (pyInt r.distanceKm) = (pyInt r.distanceKm, 0) := by
      apply proRate_all_current
      rw [hE1]
      exact hend
    have hnp : (proRateKmAcrossLeaseYears (checkAndResetAnnualKm s r.startDatetime)
        r.startDatetime r.endDatetime (pyInt r.distanceKm)).2 ≤ 0 := by
      rw [hprz]
    obtain ⟨hy, -, hcy⟩ := f6 hnp
    constructor
    · rw [hy, hprz, hone]
      simp
    · rw [hcy, hone]

theorem claim1_update_state_witness :
    (updateState c1State c1Route [] c3Cfg).currentOdometerKm
      = c1State.currentOdometerKm + relocationKmFrom c1State.currentLocationId c1Route [] c3Cfg
        + pyInt c1Route.distanceKm :=
  (claim1_update_state c1State c1Route [] c3Cfg
    (by norm_num [validateRoute, c1Route])).2.2.2.1

/-! ## C6: invariants after an accepted assignment -/

/-- **C6.**  After any accepted assignment (the feasibility check passed on
the state being mutated), with a nonnegative configured service duration and
nonnegative stored relation distances: the odometer does not decrease,
`available_from` does not decrease, and whenever a lifetime contract cap is
defined (positive, as every cap derived from `Vehicle` data is), the total
lifetime kilometres stay within the cap. -/
theorem claim6_invariants (s : VehicleState) (r : Route) (l : RelLookup)
    (cfg : AssignmentConfig)
    (hacc : checkFeasibility s r l cfg = none)
    (hdur : 0 ≤ cfg.serviceDurationHours)
    (hl : ∀ e ∈ l, 0 ≤ e.2.dist) :
    s.currentOdometerKm ≤ (updateState s r l cfg).currentOdometerKm ∧
    s.availableFrom ≤ (updateState s r l cfg).availableFrom ∧
    (∀ cap, s.totalContractLimitKm = some cap → 0 < cap →
        (updateState s r l cfg).totalLifetimeKm ≤ cap) := by
  obtain ⟨hval, havail, -, hcg⟩ := (checkFeasibility_none_iff s r l cfg).mp hacc
  obtain ⟨hdistpos, hse⟩ := validateRoute_facts r hval
  obtain ⟨f1, f2, f3, f4, -, -⟩ := updateState_fields s r l cfg
  have hreloc : 0 ≤ relocationKmFrom s.currentLocationId r l cfg :=
    relocationKmFrom_nonneg _ _ _ _ hl
  have hpd : 0 ≤ pyInt r.distanceKm := pyInt_nonneg _ (le_of_lt hdistpos)
  refine ⟨?_, ?_, ?_⟩
  · rw [f1]
    omega
  · rw [f4]
    have h1 : s.availableFrom ≤ availabilityAfterService s cfg := by
      rw [availabilityAfterService_eq]
      by_cases h : s.serviceIntervalKm + cfg.serviceToleranceKm < s.kmSinceLastService
      · rw [if_pos h]
        have : 0 ≤ hoursQ cfg.serviceDurationHours := by
          unfold hoursQ
          exact mul_nonneg hdur (by norm_num)
        linarith
      · rw [if_neg h]
    linarith
  · intro cap hcap hpos
    rw [f2]
    have hbound := contractGate_none_bound s r l cfg cap hcap (by omega) hcg
    omega

theorem claim6_invariants_witness :
    c6State.currentOdometerKm ≤ (updateState c6State c6Route [] c3Cfg).currentOdometerKm ∧
    c6State.availableFrom ≤ (updateState c6State c6Route [] c3Cfg).availableFrom ∧
    (∀ cap, c6State.totalContractLimitKm = some cap → 0 < cap →
        (updateState c6State c6Route [] c3Cfg).totalLifetimeKm ≤ cap) :=
  claim6_invariants c6State c6Route [] c3Cfg
    (by norm_num [checkFeasibility, validateRoute, c6State, c6Route, c3Cfg,
      availabilityAfterService, calculateServiceTime, needsService, contractGate,
      pyInt, hoursQ, daysQ])
    (by norm_num [c3Cfg])
    (by simp)

/-! ## C7: determinism and tie-breaking of the greedy scan -/

/-- Case laws of the candidate-scan step. -/
theorem greedyScanStep_infeasible (r : Route) (l : RelLookup) (cfg : AssignmentConfig)
    (w : List (ℕ × ℕ)) (b : Option (ℕ × ℚ)) (p : ℕ × VehicleState)
    (h : checkFeasibility p.2 r l cfg ≠ none) :
    greedyScanStep r l cfg w b p = b := by
  unfold greedyScanStep
  rw [if_pos h]

theorem greedyScanStep_nocost (r : Route) (l : RelLookup) (cfg : AssignmentConfig)
    (w : List (ℕ × ℕ)) (b : Option (ℕ × ℚ)) (p : ℕ × VehicleState)
    (hfe : checkFeasibility p.2 r l cfg = none)
    (hce : calculateAssignmentCost p.2 r l cfg w = none) :
    greedyScanStep r l cfg w b p = b := by
  unfold greedyScanStep
  simp [hfe, hce]

theorem greedyScanStep_first (r : Route) (l : RelLookup) (cfg : AssignmentConfig)
    (w : List (ℕ × ℕ)) (p : ℕ × VehicleState) (ce : ℚ)
    (hfe : checkFeasibility p.2 r l cfg = none)
    (hce : calculateAssignmentCost p.2 r l cfg w = some ce) :
    greedyScanStep r l cfg w none p = some (p.1, ce) := by
  unfold greedyScanStep
  simp [hfe, hce]

theorem greedyScanStep_better (r : Route) (l : RelLookup) (cfg : AssignmentConfig)
    (w : List (ℕ × ℕ)) (b0 : ℕ × ℚ) (p : ℕ × VehicleState) (ce : ℚ)
    (hfe : checkFeasibility p.2 r l cfg = none)
    (hce : calculateAssignmentCost p.2 r l cfg w = some ce)
    (hlt : ce < b0.2) :
    greedyScanStep r l cfg w (some b0) p = some (p.1, ce) := by
  unfold greedyScanStep
  simp [hfe, hce, hlt]

theorem greedyScanStep_keep (r : Route) (l : RelLookup) (cfg : AssignmentConfig)
    (w : List (ℕ × ℕ)) (b0 : ℕ × ℚ) (p : ℕ × VehicleState) (ce : ℚ)
    (hfe : checkFeasibility p.2 r l cfg = none)
    (hce : calculateAssignmentCost p.2 r l cfg w = some ce)
    (hge : ¬ ce < b0.2) :
    greedyScanStep r l cfg w (some b0) p = some b0 := by
  unfold greedyScanStep
  simp [hfe, hce, hge]

/-- Invariant of the candidate scan of `optimize_assignment_greedy`, for an
arbitrary running best: the result either is the initial best (and no later
candidate strictly beats it) or is the first candidate attaining the minimal
cost (strictly cheaper than the initial best and than every earlier
candidate, no worse than every later one). -/
theorem greedyFold_spec (r : Route) (l : RelLookup) (cfg : AssignmentConfig)
    (w : List (ℕ × ℕ)) :
    ∀ (ls : List (ℕ × VehicleState)) (b : Option (ℕ × ℚ)) (vid : ℕ) (c : ℚ),
      ls.foldl (greedyScanStep r l cfg w) b = some (vid, c) →
      ((b = some (vid, c) ∧ ∀ e ∈ ls, ∀ c', checkFeasibility e.2 r l cfg = none →
          calculateAssignmentCost e.2 r l cfg w = some c' → ¬ c' < c)
       ∨ ∃ pre st post, ls = pre ++ (vid, st) :: post ∧
           checkFeasibility st r l cfg = none ∧
           calculateAssignmentCost st r l cfg w = some c ∧
           (∀ bb : ℕ × ℚ, b = some bb → c < bb.2) ∧
           (∀ e ∈ pre, ∀ c', checkFeasibility e.2 r l cfg = none →
               calculateAssignmentCost e.2 r l cfg w = some c' → c < c') ∧
           (∀ e ∈ post, ∀ c', checkFeasibility e.2 r l cfg = none →
               calculateAssignmentCost e.2 r l cfg w = some c' → ¬ c' < c)) := by
  intro ls
  induction ls with
  | nil =>
    intro b vid c hfold
    simp only [List.foldl_nil] at hfold
    left
    exact ⟨hfold, by simp⟩
  | cons e tl ih =>
    intro b vid c hfold
    simp only [List.foldl_cons] at hfold
    by_cases hfe : checkFeasibility e.2 r l cfg = none
    · rcases hce : calculateAssignmentCost e.2 r l cfg w with _ | ce
      · rw [greedyScanStep_nocost r l cfg w b e hfe hce] at hfold
        rcases ih b vid c hfold with ⟨hb, htl⟩ | ⟨pre, st, post, htl, h1, h2, h3, h4, h5⟩
        · left
          refine ⟨hb, ?_⟩
          intro e' he' c' hfe' hce'
          rcases List.mem_cons.mp he' with he' | he'
          · rw [he'] at hce'
            rw [hce'] at hce
            exact absurd hce (by simp)
          · exact htl e' he' c' hfe' hce'
        · right
          refine ⟨e :: pre, st, post, by rw [htl, List.cons_append], h1, h2, h3, ?_, h5⟩
          intro e' he' c' hfe' hce'
          rcases List.mem_cons.mp he' with he' | he'
          · rw [he'] at hce'
            rw [hce'] at hce
            exact absurd hce (by simp)
          · exact h4 e' he' c' hfe' hce'
      · rcases b with _ | b0
        · rw [greedyScanStep_first r l cfg w e ce hfe hce] at hfold
          rcases ih _ vid c hfold with ⟨hb, htl⟩ | ⟨pre, st, post, htl, h1, h2, h3, h4, h5⟩
          · right
            have hpair := Option.some.inj hb
            have hv : e.1 = vid := congrArg Prod.fst hpair
            have hc : ce = c := congrArg Prod.snd hpair
            refine ⟨[], e.2, tl, ?_, hfe, ?_, by simp, by simp, ?_⟩
            · simp [← hv]
            · rw [hce, hc]
            · intro e' he' c' hfe' hce'
              exact htl e' he' c' hfe' hce'
          · right
            refine ⟨e :: pre, st, post, by rw [htl, List.cons_append], h1, h2, by simp, ?_, h5⟩
            intro e' he' c' hfe' hce'
            rcases List.mem_cons.mp he' with he' | he'
            · have hlt := h3 (e.1, ce) rfl
              rw [he'] at hce'
              rw [hce'] at hce
              rw [Option.some.inj hce]
              exact hlt
            · exact h4 e' he' c' hfe' hce'
        · by_cases hlt : ce < b0.2
          · rw [greedyScanStep_better r l cfg w b0 e ce hfe hce hlt] at hfold
            rcases ih _ vid c hfold with ⟨hb, htl⟩ | ⟨pre, st, post, htl, h1, h2, h3, h4, h5⟩
            · right
              have hpair := Option.some.inj hb
              have hv : e.1 = vid := congrArg Prod.fst hpair
              have hc : ce = c := congrArg Prod.snd hpair
              refine ⟨[], e.2, tl, ?_, hfe, ?_, ?_, by simp, ?_⟩
              · simp [← hv]
              · rw [hce, hc]
              · intro bb hbb
                have hbb' : b0 = bb := Option.some.inj hbb
                rw [← hbb', ← hc]
                exact hlt
              · intro e' he' c' hfe' hce'
                exact htl e' he' c' hfe' hce'
            · right
              refine ⟨e :: pre, st, post, by rw [htl, List.cons_append], h1, h2, ?_, ?_, h5⟩
              · intro bb hbb
                have hc1 := h3 (e.1, ce) rfl
                have hbb' : b0 = bb := Option.some.inj hbb
                rw [← hbb']
                exact lt_trans hc1 hlt
              · intro e' he' c' hfe' hce'
                rcases List.mem_cons.mp he' with he' | he'
                · have hc1 := h3 (e.1, ce) rfl
                  rw [he'] at hce'
                  rw [hce'] at hce
                  rw [Option.some.inj hce]
                  exact hc1
                · exact h4 e' he' c' hfe' hce'
          · rw [greedyScanStep_keep r l cfg w b0 e ce hfe hce hlt] at hfold
            rcases ih _ vid c hfold with ⟨hb, htl⟩ | ⟨pre, st, post, htl, h1, h2, h3, h4, h5⟩
            · left
              refine ⟨hb, ?_⟩
              intro e' he' c' hfe' hce'
              rcases List.mem_cons.mp he' with he' | he'
              · rw [he'] at hce'
                rw [hce'] at hce
                have hceq : c' = ce := Option.some.inj hce
                have hb0 : b0 = (vid, c) := Option.some.inj hb
                rw [hceq]
                rw [hb0] at hlt
                exact hlt
              · exact htl e' he' c' hfe' hce'
            · right
              refine ⟨e :: pre, st, post, by rw [htl, List.cons_append], h1, h2, ?_, ?_, h5⟩
              · intro bb hbb
                have hcb := h3 b0 rfl
                have hbb' : b0 = bb := Option.some.inj hbb
                rw [← hbb']
                exact hcb
              · intro e' he' c' hfe' hce'
                rcases List.mem_cons.mp he' with he' | he'
                · have hcb := h3 b0 rfl
                  rw [he'] at hce'
                  rw [hce'] at hce
                  rw [Option.some.inj hce]
                  exact lt_of_lt_of_le hcb (not_lt.mp hlt)
                · exact h4 e' he' c' hfe' hce'
    · rw [greedyScanStep_infeasible r l cfg w b e hfe] at hfold
      rcases ih b vid c hfold with ⟨hb, htl⟩ | ⟨pre, st, post, htl, h1, h2, h3, h4, h5⟩
      · left
        refine ⟨hb, ?_⟩
        intro e' he' c' hfe' hce'
        rcases List.mem_cons.mp he' with he' | he'
        · rw [he'] at hfe'
          exact absurd hfe' hfe
        · exact htl e' he' c' hfe' hce'
      · right
        refine ⟨e :: pre, st, post, by rw [htl, List.cons_append], h1, h2, h3, ?_, h5⟩
        intro e' he' c' hfe' hce'
        rcases List.mem_cons.mp he' with he' | he'
        · rw [he'] at hfe'
          exact absurd hfe' hfe
        · exact h4 e' he' c' hfe' hce'

/-- A scan over only infeasible vehicles leaves the running best unchanged. -/
theorem greedyFold_all_infeasible (r : Route) (l : RelLookup) (cfg : AssignmentConfig)
    (w : List (ℕ × ℕ)) :
    ∀ (ls : List (ℕ × VehicleState)),
      (∀ e ∈ ls, checkFeasibility e.2 r l cfg ≠ none) →
      ∀ b, ls.foldl (greedyScanStep r l cfg w) b = b := by
  intro ls
  induction ls with
  | nil =>
    intro _ b
    rfl
  | cons e tl ih =>
    intro h b
    simp only [List.foldl_cons]
    rw [greedyScanStep_infeasible r l cfg w b e (h e (List.mem_cons_self e tl))]
    exact ih (fun e' he' => h e' (List.mem_cons_of_mem e he')) b

/-- **C7 counterexample.**  Two vehicles listed as ids 7 then 3, both at the
route's start location with identical states, hence identical minimal cost 0:
the greedy scan selects id 7 — the earlier-listed vehicle — although 3 < 7,
so equal-cost ties are NOT broken toward the smaller vehicle id. -/
theorem claim7_counterexample :
    greedyBest [(7, c7StateA), (3, c7StateB)] c7Route [] c3Cfg [] = some (7, 0) ∧
    checkFeasibility c7StateB c7Route [] c3Cfg = none ∧
    calculateAssignmentCost c7StateB c7Route [] c3Cfg [] = some 0 ∧
    (3 : ℕ) < 7 := by
  refine ⟨?_, ?_, ?_, by norm_num⟩
  · norm_num [greedyBest, greedyScanStep, checkFeasibility, validateRoute,
      availabilityAfterService, calculateServiceTime, needsService, contractGate,
      calculateAssignmentCost, getRelocationInfo, getCachedRelation, c7StateA, c7StateB,
      c7Route, c3Cfg, pyInt, daysQ, hoursQ]
  · norm_num [checkFeasibility, validateRoute, availabilityAfterService,
      calculateServiceTime, needsService, contractGate, c7StateB, c7StateA, c7Route, c3Cfg,
      daysQ, hoursQ]
  · norm_num [calculateAssignmentCost, getRelocationInfo, getCachedRelation, needsService,
      c7StateB, c7StateA, c7Route, c3Cfg, pyInt, daysQ]

/-- **C7 (amended).**  The greedy driver is deterministic — the selection is a
pure function of its input, characterised exactly: the chosen vehicle is the
FIRST entry, in the iteration (insertion) order of the vehicle-state
dictionary, attaining the minimal assignment cost among feasible candidates;
every earlier candidate is strictly more expensive and no later candidate is
cheaper.  Ties on cost are therefore broken by input position, not by the
smaller vehicle id. -/
theorem claim7_greedy_first_minimal (states : List (ℕ × VehicleState)) (r : Route)
    (l : RelLookup) (cfg : AssignmentConfig) (w : List (ℕ × ℕ)) (vid : ℕ) (c : ℚ)
    (h : greedyBest states r l cfg w = some (vid, c)) :
    ∃ pre st post,
      states = pre ++ (vid, st) :: post ∧
      checkFeasibility st r l cfg = none ∧
      calculateAssignmentCost st r l cfg w = some c ∧
      (∀ e ∈ pre, ∀ c', checkFeasibility e.2 r l cfg = none →
          calculateAssignmentCost e.2 r l cfg w = some c' → c < c') ∧
      (∀ e ∈ post, ∀ c', checkFeasibility e.2 r l cfg = none →
          calculateAssignmentCost e.2 r l cfg w = some c' → c ≤ c') := by
  have hspec := greedyFold_spec r l cfg w states none vid c (by
    unfold greedyBest at h
    exact h)
  rcases hspec with ⟨hb, -⟩ | ⟨pre, st, post, h1, h2, h3, -, h4, h5⟩
  · exact absurd hb (by simp)
  · exact ⟨pre, st, post, h1, h2, h3, h4,
      fun e he c' hf hc => not_lt.mp (h5 e he c' hf hc)⟩

theorem claim7_greedy_first_minimal_witness :
    ∃ pre st post,
      [(7, c7StateA), (3, c7StateB)] = pre ++ ((7 : ℕ), st) :: post ∧
      checkFeasibility st c7Route [] c3Cfg = none ∧
      calculateAssignmentCost st c7Route [] c3Cfg [] = some 0 ∧
      (∀ e ∈ pre, ∀ c', checkFeasibility e.2 c7Route [] c3Cfg = none →
          calculateAssignmentCost e.2 c7Route [] c3Cfg [] = some c' → 0 < c') ∧
      (∀ e ∈ post, ∀ c', checkFeasibility e.2 c7Route [] c3Cfg = none →
          calculateAssignmentCost e.2 c7Route [] c3Cfg [] = some c' → 0 ≤ c') :=
  claim7_greedy_first_minimal [(7, c7StateA), (3, c7StateB)] c7Route [] c3Cfg [] 7 0
    (by norm_num [greedyBest, greedyScanStep, checkFeasibility, validateRoute,
      availabilityAfterService, calculateServiceTime, needsService, contractGate,
      calculateAssignmentCost, getRelocationInfo, getCachedRelation, c7StateA, c7StateB,
      c7Route, c3Cfg, pyInt, daysQ, hoursQ])

/-! ## C9: routes with no candidate -/

/-- **C9.**  When no vehicle is feasible for a route (under the greedy
driver, which has no further relaxation), the per-route step records exactly
the route's id in the unassigned list and leaves the vehicle states, the
workload counters and the emitted assignments untouched, and the driver's
fold then simply continues with the remaining routes from that accumulator. -/
theorem claim9_unassigned_no_mutation (l : RelLookup) (cfg : AssignmentConfig)
    (acc : GreedyAcc) (r : Route)
    (h : ∀ e ∈ acc.states, checkFeasibility e.2 r l cfg ≠ none) :
    greedyStep l cfg acc r = { acc with unassigned := acc.unassigned ++ [r.id] } ∧
    (greedyStep l cfg acc r).states = acc.states ∧
    (greedyStep l cfg acc r).assignments = acc.assignments ∧
    (∀ rest : List Route, List.foldl (greedyStep l cfg) acc (r :: rest)
        = List.foldl (greedyStep l cfg)
            { acc with unassigned := acc.unassigned ++ [r.id] } rest) := by
  have hb : greedyBest acc.states r l cfg acc.workloads = none := by
    unfold greedyBest
    exact greedyFold_all_infeasible r l cfg acc.workloads acc.states h none
  have hstep : greedyStep l cfg acc r
      = { acc with unassigned := acc.unassigned ++ [r.id] } := by
    unfold greedyStep
    rw [hb]
  refine ⟨hstep, by rw [hstep], by rw [hstep], ?_⟩
  intro rest
  simp only [List.foldl_cons]
  rw [hstep]

theorem claim9_unassigned_no_mutation_witness :
    greedyStep [] c3Cfg c9Acc c9Route
        = { c9Acc with unassigned := c9Acc.unassigned ++ [c9Route.id] } ∧
    (greedyStep [] c3Cfg c9Acc c9Route).states = c9Acc.states ∧
    (greedyStep [] c3Cfg c9Acc c9Route).assignments = c9Acc.assignments ∧
    (∀ rest : List Route, List.foldl (greedyStep [] c3Cfg) c9Acc (c9Route :: rest)
        = List.foldl (greedyStep [] c3Cfg)
            { c9Acc with unassigned := c9Acc.unassigned ++ [c9Route.id] } rest) :=
  claim9_unassigned_no_mutation [] c3Cfg c9Acc c9Route
    (by
      intro e he
      simp only [c9Acc, List.mem_singleton] at he
      subst he
      norm_num [checkFeasibility, validateRoute, availabilityAfterService,
        calculateServiceTime, needsService, c9State, c7StateA, c9Route, c3Cfg, hoursQ]
      exact fun hcontra => Option.noConfusion hcontra)

/-! ## C4 / C5: the look-ahead selection -/

/-- The effective-cost scan never returns `none` from a nonempty list or a
`some` accumulator. -/
theorem effFold_none (cfg : AssignmentConfig) (chainScore : VehicleState → ℚ) :
    ∀ (l : List (ℕ × VehicleState × ℚ)) (b : Option (ℚ × ℕ × ℚ × ℚ)),
      l.foldl (effScanStep cfg chainScore) b = none → l = [] ∧ b = none := by
  intro l
  induction l with
  | nil =>
    intro b h
    exact ⟨rfl, h⟩
  | cons c tl ih =>
    intro b h
    simp only [List.foldl_cons] at h
    obtain ⟨-, hstep⟩ := ih (effScanStep cfg chainScore b c) h
    exfalso
    rcases b with _ | b0
    · simp only [effScanStep] at hstep
      exact Option.noConfusion hstep
    · simp only [effScanStep] at hstep
      split at hstep
      · exact Option.noConfusion hstep
      · exact Option.noConfusion hstep

/-- The effective-cost scan returns a scored candidate of the list (or the
seed) whose effective cost is minimal among the list and the seed. -/
theorem effFold_spec (cfg : AssignmentConfig) (chainScore : VehicleState → ℚ) :
    ∀ (l : List (ℕ × VehicleState × ℚ)) (b : Option (ℚ × ℕ × ℚ × ℚ))
      (res : ℚ × ℕ × ℚ × ℚ),
      l.foldl (effScanStep cfg chainScore) b = some res →
      (b = some res ∨ ∃ c ∈ l, res = effKey cfg chainScore c) ∧
      (∀ c ∈ l, res.1 ≤ (effKey cfg chainScore c).1) ∧
      (∀ b0, b = some b0 → res.1 ≤ b0.1) := by
  intro l
  induction l with
  | nil =>
    intro b res h
    simp only [List.foldl_nil] at h
    refine ⟨Or.inl h, by simp, ?_⟩
    intro b0 hb0
    rw [hb0] at h
    rw [Option.some.inj h]
  | cons c tl ih =>
    intro b res h
    simp only [List.foldl_cons] at h
    have hkey : ∃ b1, effScanStep cfg chainScore b c = some b1 ∧
        (b1 = effKey cfg chainScore c ∨ b = some b1) ∧
        b1.1 ≤ (effKey cfg chainScore c).1 ∧
        (∀ b0, b = some b0 → b1.1 ≤ b0.1) := by
      rcases b with _ | b0
      · exact ⟨effKey cfg chainScore c, by simp [effScanStep], Or.inl rfl,
          le_refl _, by simp⟩
      · by_cases hlt : (effKey cfg chainScore c).1 < b0.1
        · refine ⟨effKey cfg chainScore c, by simp [effScanStep, hlt], Or.inl rfl,
            le_refl _, ?_⟩
          intro b0' hb0'
          rw [← Option.some.inj hb0']
          exact le_of_lt hlt
        · refine ⟨b0, by simp [effScanStep, hlt], Or.inr rfl, not_lt.mp hlt, ?_⟩
          intro b0' hb0'
          rw [← Option.some.inj hb0']
    rcases hkey with ⟨b1, hstep, hb1src, hb1le, hb1b⟩
    rw [hstep] at h
    obtain ⟨hsrc, hall, hback⟩ := ih (some b1) res h
    refine ⟨?_, ?_, ?_⟩
    · rcases hsrc with hs | ⟨c', hc', hres⟩
      · have hbr : b1 = res := Option.some.inj hs
        rcases hb1src with h1 | h2
        · exact Or.inr ⟨c, List.mem_cons_self c tl, hbr ▸ h1⟩
        · refine Or.inl ?_
          rw [h2, hbr]
      · exact Or.inr ⟨c', List.mem_cons_of_mem c hc', hres⟩
    · intro c' hc'
      rcases List.mem_cons.mp hc' with h1 | h1
      · rw [h1]
        exact le_trans (hback b1 rfl) hb1le
      · exact hall c' h1
    · intro b0 hb0
      exact le_trans (hback b1 rfl) (hb1b b0 hb0)

/-- Unfolding of `findBestVehicleWithLookahead` once the sorted candidate
list is known to be nonempty. -/
theorem findBest_cons (states : List (ℕ × VehicleState)) (r : Route) (l : RelLookup)
    (cfg : AssignmentConfig) (chainScore : VehicleState → ℚ)
    (first : ℕ × VehicleState × ℚ) (restS : List (ℕ × VehicleState × ℚ))
    (hs : List.insertionSort candidateLe (lookaheadCandidates states r l cfg)
        = first :: restS) :
    findBestVehicleWithLookahead states r l cfg chainScore =
      if cfg.chainDepth = 0 ∨ cfg.lookAheadDays = 0 then some (first.1, first.2.2, 0)
      else match restS with
      | [] => some (first.1, first.2.2, 0)
      | second :: _ =>
        if lookaheadGap first second then some (first.1, first.2.2, 0)
        else (List.foldl (effScanStep cfg chainScore) none
            (lookaheadToEval (first :: restS))).map
          (fun b => (b.2.1, b.2.2.1, b.2.2.2)) := by
  unfold findBestVehicleWithLookahead
  rw [hs]

/-- The head of the sorted candidate list is cheapest among all candidates. -/
theorem sortedHead_min (cands : List (ℕ × VehicleState × ℚ))
    (first : ℕ × VehicleState × ℚ) (restS : List (ℕ × VehicleState × ℚ))
    (hs : List.insertionSort candidateLe cands = first :: restS) :
    ∀ c ∈ cands, first.2.2 ≤ c.2.2 := by
  intro c hc
  have hp := List.perm_insertionSort candidateLe cands
  have hc' : c ∈ List.insertionSort candidateLe cands := hp.mem_iff.mpr hc
  rw [hs] at hc'
  rcases List.mem_cons.mp hc' with h | h
  · rw [h]
  · have hsorted := List.sorted_insertionSort candidateLe cands
    rw [hs] at hsorted
    exact (List.sorted_cons.mp hsorted).1 c h

/-- **C4 counterexample.**  With chain optimisation on (`chain_weight = 3/5`),
two feasible vehicles of immediate cost 100 (id 1, chain score 0) and 101
(id 2, chain score 1), and neither gap-shortcut condition holding, the
candidate loop of `optimize_assignment_with_lookahead` selects vehicle 2 —
its effective cost uses `chain_score * chain_weight * 2.0` — although the
claimed rule `immediate − chain_weight × chain_score` prefers vehicle 1
(100 < 101 − 3/5); the driver also never applies the shortcut or restricts
scoring to the top-5-within-20% pool. -/
theorem claim4_counterexample :
    lookaheadSelect [(1, c4StateA), (2, c4StateB)] c4Route [] c4Cfg c4Score
        = some (2, some 101, 1) ∧
    checkFeasibility c4StateA c4Route [] c4Cfg = none ∧
    calculateAssignmentCost c4StateA c4Route [] c4Cfg [] = some 100 ∧
    calculateAssignmentCost c4StateB c4Route [] c4Cfg [] = some 101 ∧
    ¬ (2000 < (101 : ℚ) - 100 ∨ 1/2 < ((101 : ℚ) - 100) / (100 + 1)) ∧
    (100 : ℚ) - c4Cfg.chainWeight * c4Score c4StateA
      < 101 - c4Cfg.chainWeight * c4Score c4StateB := by
  refine ⟨?_, ?_, ?_, ?_, by norm_num,
    by norm_num [c4Cfg, c3Cfg, c4Score, c4StateA, c4StateB, c7StateA]⟩
  · norm_num [lookaheadSelect, checkFeasibility, validateRoute, availabilityAfterService,
      calculateServiceTime, needsService, contractGate, calculateAssignmentCost,
      getRelocationInfo, getCachedRelation, c4StateA, c4StateB, c7StateA, c4Route, c4Cfg,
      c3Cfg, c4Score, pyInt, daysQ, hoursQ]
  · norm_num [checkFeasibility, validateRoute, availabilityAfterService,
      calculateServiceTime, needsService, contractGate, c4StateA, c7StateA, c4Route,
      c4Cfg, c3Cfg, daysQ, hoursQ]
  · norm_num [calculateAssignmentCost, getRelocationInfo, getCachedRelation, needsService,
      c4StateA, c7StateA, c4Route, c4Cfg, c3Cfg, pyInt]
  · norm_num [calculateAssignmentCost, getRelocationInfo, getCachedRelation, needsService,
      c4StateB, c7StateA, c4Route, c4Cfg, c3Cfg, pyInt]

/-- **C4 (amended).**  The selection rule of `find_best_vehicle_with_lookahead`
in `src/assignment.py`: the candidate list is sorted by immediate cost; with
chain optimisation disabled, a single candidate, or the gap shortcut firing
(absolute gap over 2000 or relative gap over 50%), the cheapest candidate is
picked with chain score 0; otherwise the chain scorer runs only over the at
most 5 cheapest candidates within 20% of the cheapest, and the picked
candidate minimises `immediate − chain_score × chain_weight` over that pool. -/
theorem claim4_shortcut_selection (states : List (ℕ × VehicleState)) (r : Route)
    (l : RelLookup) (cfg : AssignmentConfig) (chainScore : VehicleState → ℚ)
    (vid : ℕ) (ic cs : ℚ)
    (h : findBestVehicleWithLookahead states r l cfg chainScore = some (vid, ic, cs)) :
    ∃ first restS,
      List.insertionSort candidateLe (lookaheadCandidates states r l cfg)
          = first :: restS ∧
      (∀ c ∈ lookaheadCandidates states r l cfg, first.2.2 ≤ c.2.2) ∧
      ((cfg.chainDepth = 0 ∨ cfg.lookAheadDays = 0 ∨ restS = [] ∨
          (∃ second tl, restS = second :: tl ∧ lookaheadGap first second)) →
        vid = first.1 ∧ ic = first.2.2 ∧ cs = 0) ∧
      (∀ second tl, restS = second :: tl → cfg.chainDepth ≠ 0 →
        cfg.lookAheadDays ≠ 0 → ¬ lookaheadGap first second →
        ∃ c ∈ lookaheadToEval (first :: restS),
          vid = c.1 ∧ ic = c.2.2 ∧ cs = chainScore c.2.1 ∧
          ∀ c' ∈ lookaheadToEval (first :: restS),
            ic - cs * cfg.chainWeight
              ≤ c'.2.2 - chainScore c'.2.1 * cfg.chainWeight) := by
  rcases hs : List.insertionSort candidateLe (lookaheadCandidates states r l cfg) with
    _ | ⟨first, restS⟩
  · have hnone : findBestVehicleWithLookahead states r l cfg chainScore = none := by
      unfold findBestVehicleWithLookahead
      rw [hs]
    rw [hnone] at h
    exact absurd h (by simp)
  · rw [findBest_cons states r l cfg chainScore first restS hs] at h
    refine ⟨first, restS, rfl, sortedHead_min _ first restS hs, ?_, ?_⟩
    · intro hA
      by_cases hd : cfg.chainDepth = 0 ∨ cfg.lookAheadDays = 0
      · rw [if_pos hd] at h
        simp only [Option.some.injEq, Prod.mk.injEq] at h
        exact ⟨h.1.symm, h.2.1.symm, h.2.2.symm⟩
      · rw [if_neg hd] at h
        rcases hA with h1 | h2 | h3 | ⟨second, tl, hrs, hgap⟩
        · exact absurd (Or.inl h1) hd
        · exact absurd (Or.inr h2) hd
        · subst h3
          change some (first.1, first.2.2, 0) = some (vid, ic, cs) at h
          simp only [Option.some.injEq, Prod.mk.injEq] at h
          exact ⟨h.1.symm, h.2.1.symm, h.2.2.symm⟩
        · subst hrs
          change (if lookaheadGap first second then some (first.1, first.2.2, 0)
              else (List.foldl (effScanStep cfg chainScore) none
                  (lookaheadToEval (first :: second :: tl))).map
                (fun b => (b.2.1, b.2.2.1, b.2.2.2))) = some (vid, ic, cs) at h
          rw [if_pos hgap] at h
          simp only [Option.some.injEq, Prod.mk.injEq] at h
          exact ⟨h.1.symm, h.2.1.symm, h.2.2.symm⟩
    · intro second tl hrs hd1 hd2 hgap
      subst hrs
      rw [if_neg (not_or.mpr ⟨hd1, hd2⟩)] at h
      change (if lookaheadGap first second then some (first.1, first.2.2, 0)
          else (List.foldl (effScanStep cfg chainScore) none
              (lookaheadToEval (first :: second :: tl))).map
            (fun b => (b.2.1, b.2.2.1, b.2.2.2))) = some (vid, ic, cs) at h
      rw [if_neg hgap] at h
      rcases hf : List.foldl (effScanStep cfg chainScore) none
          (lookaheadToEval (first :: second :: tl)) with _ | bres
      · rw [hf] at h
        exact absurd h (by simp)
      · rw [hf] at h
        simp only [Option.map_some', Option.some.injEq, Prod.mk.injEq] at h
        obtain ⟨h1, h2, h3⟩ := h
        obtain ⟨hsrc, hall, -⟩ := effFold_spec cfg chainScore
          (lookaheadToEval (first :: second :: tl)) none bres hf
        rcases hsrc with habs | ⟨c, hcmem, hckey⟩
        · exact absurd habs (by simp)
        · subst hckey
          refine ⟨c, hcmem, h1.symm, h2.symm, h3.symm, ?_⟩
          intro c' hc'
          rw [← h2, ← h3]
          exact hall c' hc'

theorem claim4_shortcut_selection_witness :
    ∃ first restS,
      List.insertionSort candidateLe
          (lookaheadCandidates [(1, c4StateA), (2, c4StateB)] c4Route [] c4Cfg)
          = first :: restS ∧
      (∀ c ∈ lookaheadCandidates [(1, c4StateA), (2, c4StateB)] c4Route [] c4Cfg,
          first.2.2 ≤ c.2.2) ∧
      ((c4Cfg.chainDepth = 0 ∨ c4Cfg.lookAheadDays = 0 ∨ restS = [] ∨
          (∃ second tl, restS = second :: tl ∧ lookaheadGap first second)) →
        (1 : ℕ) = first.1 ∧ (100 : ℚ) = first.2.2 ∧ (0 : ℚ) = 0) ∧
      (∀ second tl, restS = second :: tl → c4Cfg.chainDepth ≠ 0 →
        c4Cfg.lookAheadDays ≠ 0 → ¬ lookaheadGap first second →
        ∃ c ∈ lookaheadToEval (first :: restS),
          (1 : ℕ) = c.1 ∧ (100 : ℚ) = c.2.2 ∧ (0 : ℚ) = c4Score c.2.1 ∧
          ∀ c' ∈ lookaheadToEval (first :: restS),
            (100 : ℚ) - 0 * c4Cfg.chainWeight
              ≤ c'.2.2 - c4Score c'.2.1 * c4Cfg.chainWeight) :=
  claim4_shortcut_selection [(1, c4StateA), (2, c4StateB)] c4Route [] c4Cfg c4Score
    1 100 0
    (by norm_num [findBestVehicleWithLookahead, lookaheadCandidates, strictCandidates,
      relaxedCandidates, isFeasible, isTimeFeasible, checkContractLimit, checkSwapPolicy,
      canSwapAt, calculateAssignmentCostCosts, calculateRelocationCostCosts,
      calculateOverageCost, vehicleNeedsService, getRelation, lookupPair,
      List.insertionSort, List.orderedInsert, candidateLe, lookaheadGap, lookaheadToEval,
      effScanStep, effKey, c4StateA, c4StateB, c7StateA, c4Route, c4Cfg, c3Cfg, c4Score,
      pyInt, minutesQ, daysQ])

/-- **C5 counterexample.**  A vehicle whose only blocker is the swap budget
(one relocation inside the window, `max_swaps_per_period = 1`): the greedy
driver `optimize_assignment_greedy` — which the claim covers — records the
route as unassigned with no relaxed pass at all, although the relaxed pass of
`src/assignment.py` (which the other driver runs) yields a candidate with the
`+5000` penalty and would assign it. -/
theorem claim5_counterexample :
    greedyStep c5Lookup c3Cfg c5Acc c5Route
        = { c5Acc with unassigned := [c5Route.id] } ∧
    checkFeasibility c5State c5Route c5Lookup c3Cfg = some .swapExceeded ∧
    strictCandidates [(5, c5State)] c5Route c5Lookup c3Cfg = [] ∧
    relaxedCandidates [(5, c5State)] c5Route c5Lookup c3Cfg
        = [(5, c5State, 12025/2)] ∧
    findBestVehicleWithLookahead [(5, c5State)] c5Route c5Lookup c3Cfg (fun _ => 0)
        = some (5, 12025/2, 0) := by
  refine ⟨?_, ?_, ?_, ?_, ?_⟩
  · norm_num [Option.some_ne_none, greedyStep, greedyBest, greedyScanStep, checkFeasibility, validateRoute,
      availabilityAfterService, calculateServiceTime, needsService, contractGate,
      getCachedRelation, getRelation, lookupPair, c5Acc, c5State, c7StateA, c5Route,
      c3Cfg, c5Lookup, pyInt, minutesQ, daysQ]
  · norm_num [Option.some_ne_none, checkFeasibility, validateRoute, availabilityAfterService,
      calculateServiceTime, needsService, contractGate, getCachedRelation, getRelation,
      lookupPair, c5State, c7StateA, c5Route, c3Cfg, c5Lookup, pyInt, minutesQ, daysQ]
  · norm_num [Option.some_ne_none, strictCandidates, isFeasible, isTimeFeasible, checkContractLimit,
      checkSwapPolicy, canSwapAt, getRelation, lookupPair, c5State, c7StateA, c5Route,
      c3Cfg, c5Lookup, pyInt, minutesQ, daysQ]
  · norm_num [Option.some_ne_none, List.filterMap_cons, List.filterMap_nil, relaxedCandidates, isFeasible, isTimeFeasible, checkContractLimit,
      calculateAssignmentCostCosts, calculateRelocationCostCosts, calculateOverageCost,
      vehicleNeedsService, getRelation, lookupPair, c5State, c7StateA, c5Route, c3Cfg,
      c5Lookup, pyInt, minutesQ]
  · norm_num [Option.some_ne_none, List.filterMap_cons, List.filterMap_nil, List.isEmpty_cons, List.isEmpty_nil, findBestVehicleWithLookahead, lookaheadCandidates, strictCandidates,
      relaxedCandidates, isFeasible, isTimeFeasible, checkContractLimit, checkSwapPolicy,
      canSwapAt, calculateAssignmentCostCosts, calculateRelocationCostCosts,
      calculateOverageCost, vehicleNeedsService, getRelation, lookupPair,
      List.insertionSort, List.orderedInsert, candidateLe, c5State, c7StateA, c5Route,
      c3Cfg, c5Lookup, pyInt, minutesQ, daysQ]

/-- **C5 (amended).**  The relaxed fallback of
`find_best_vehicle_with_lookahead` in `src/assignment.py`: when the strict
pass is empty, the relaxed candidates are exactly the vehicles passing the
time and contract gates (the swap gate is the only constraint dropped), each
carrying its immediate cost plus the fixed `5000` penalty; the driver returns
nobody exactly when the relaxed pass is also empty, and (with chain
optimisation disabled) otherwise assigns the cheapest relaxed candidate. -/
theorem claim5_relaxed_fallback (states : List (ℕ × VehicleState)) (r : Route)
    (l : RelLookup) (cfg : AssignmentConfig) (chainScore : VehicleState → ℚ)
    (hstrict : strictCandidates states r l cfg = [])
    (h0 : ∀ c ∈ relaxedCandidates states r l cfg, 0 ≤ c.2.2) :
    (∀ v st c, (v, st, c) ∈ relaxedCandidates states r l cfg →
        (v, st) ∈ states ∧ isFeasible st r l cfg false = true ∧
        c = calculateAssignmentCostCosts st r l cfg + 5000) ∧
    (∀ p ∈ states, isFeasible p.2 r l cfg false = true →
        (p.1, p.2, calculateAssignmentCostCosts p.2 r l cfg + 5000)
          ∈ relaxedCandidates states r l cfg) ∧
    (∀ st, isFeasible st r l cfg false
        = (isTimeFeasible st r l && !(checkContractLimit st r).1)) ∧
    (findBestVehicleWithLookahead states r l cfg chainScore = none ↔
        relaxedCandidates states r l cfg = []) ∧
    ((cfg.chainDepth = 0 ∨ cfg.lookAheadDays = 0) →
      ∀ vid ic cs,
        findBestVehicleWithLookahead states r l cfg chainScore = some (vid, ic, cs) →
        cs = 0 ∧ (∃ st, (vid, st, ic) ∈ relaxedCandidates states r l cfg) ∧
        ∀ v' st' c', (v', st', c') ∈ relaxedCandidates states r l cfg → ic ≤ c') := by
  have hcand : lookaheadCandidates states r l cfg = relaxedCandidates states r l cfg := by
    unfold lookaheadCandidates
    rw [hstrict]
    rfl
  refine ⟨?_, ?_, ?_, ?_, ?_⟩
  · intro v st c hm
    unfold relaxedCandidates at hm
    rw [List.mem_filterMap] at hm
    obtain ⟨p, hp, hfp⟩ := hm
    by_cases hfe : isFeasible p.2 r l cfg false = true
    · rw [if_pos hfe] at hfp
      simp only [Option.some.injEq, Prod.mk.injEq] at hfp
      obtain ⟨h1, h2, h3⟩ := hfp
      subst h1
      subst h2
      subst h3
      exact ⟨hp, hfe, rfl⟩
    · rw [if_neg hfe] at hfp
      exact absurd hfp (by simp)
  · intro p hp hfe
    unfold relaxedCandidates
    rw [List.mem_filterMap]
    exact ⟨p, hp, by rw [if_pos hfe]⟩
  · intro st
    cases h1 : isTimeFeasible st r l <;> cases h2 : (checkContractLimit st r).1 <;>
      simp [isFeasible, h1, h2]
  · constructor
    · intro hn
      by_contra hne
      have hcne : lookaheadCandidates states r l cfg ≠ [] := by
        rw [hcand]
        exact hne
      have hperm := List.perm_insertionSort candidateLe (lookaheadCandidates states r l cfg)
      rcases hsx : List.insertionSort candidateLe (lookaheadCandidates states r l cfg)
        with _ | ⟨first, restS⟩
      · have hlen := hperm.length_eq
        rw [hsx] at hlen
        exact hcne (List.length_eq_zero.mp hlen.symm)
      · rw [findBest_cons states r l cfg chainScore first restS hsx] at hn
        by_cases hd : cfg.chainDepth = 0 ∨ cfg.lookAheadDays = 0
        · rw [if_pos hd] at hn
          exact Option.noConfusion hn
        · rw [if_neg hd] at hn
          rcases restS with _ | ⟨second, tl⟩
          · change some (first.1, first.2.2, 0) = none at hn
            exact Option.noConfusion hn
          · by_cases hg : lookaheadGap first second
            · change (if lookaheadGap first second then some (first.1, first.2.2, 0)
                  else (List.foldl (effScanStep cfg chainScore) none
                      (lookaheadToEval (first :: second :: tl))).map
                    (fun b => (b.2.1, b.2.2.1, b.2.2.2))) = none at hn
              rw [if_pos hg] at hn
              exact Option.noConfusion hn
            · change (if lookaheadGap first second then some (first.1, first.2.2, 0)
                  else (List.foldl (effScanStep cfg chainScore) none
                      (lookaheadToEval (first :: second :: tl))).map
                    (fun b => (b.2.1, b.2.2.1, b.2.2.2))) = none at hn
              rw [if_neg hg] at hn
              have hfirstmem : first ∈ lookaheadToEval (first :: second :: tl) := by
                unfold lookaheadToEval
                refine List.mem_filter.mpr ⟨?_, ?_⟩
                · have h1 : 1 ≤ min 5 ((first :: second :: tl).length) :=
                    le_min (by norm_num) (by simp)
                  obtain ⟨k, hk⟩ := Nat.exists_eq_add_of_le h1
                  rw [hk, Nat.add_comm, List.take_succ_cons]
                  exact List.mem_cons_self _ _
                · have hfr : first ∈ relaxedCandidates states r l cfg := by
                    rw [← hcand]
                    refine hperm.mem_iff.mp ?_
                    rw [hsx]
                    exact List.mem_cons_self _ _
                  have := h0 first hfr
                  rw [decide_eq_true_eq]
                  linarith
              rcases hfo : List.foldl (effScanStep cfg chainScore) none
                  (lookaheadToEval (first :: second :: tl)) with _ | bres
              · obtain ⟨hnil2, -⟩ := effFold_none cfg chainScore _ none hfo
                rw [hnil2] at hfirstmem
                exact absurd hfirstmem (List.not_mem_nil first)
              · rw [hfo] at hn
                exact Option.noConfusion hn
    · intro hre
      unfold findBestVehicleWithLookahead
      rw [hcand, hre]
      rfl
  · intro hd vid ic cs h
    rcases hsx : List.insertionSort candidateLe (lookaheadCandidates states r l cfg)
      with _ | ⟨first, restS⟩
    · have hnone : findBestVehicleWithLookahead states r l cfg chainScore = none := by
        unfold findBestVehicleWithLookahead
        rw [hsx]
      rw [hnone] at h
      exact absurd h (by simp)
    · rw [findBest_cons states r l cfg chainScore first restS hsx] at h
      rw [if_pos hd] at h
      simp only [Option.some.injEq, Prod.mk.injEq] at h
      obtain ⟨h1, h2, h3⟩ := h
      have hmem : first ∈ relaxedCandidates states r l cfg := by
        rw [← hcand]
        refine (List.perm_insertionSort candidateLe _).mem_iff.mp ?_
        rw [hsx]
        exact List.mem_cons_self _ _
      refine ⟨h3.symm, ⟨first.2.1, ?_⟩, ?_⟩
      · rw [← h1, ← h2]
        exact hmem
      · intro v' st' c' hm'
        have hle := sortedHead_min (lookaheadCandidates states r l cfg) first restS hsx
          (v', st', c') (by rw [hcand]; exact hm')
        rw [← h2]
        exact hle

theorem claim5_relaxed_fallback_witness :
    (∀ v st c, (v, st, c) ∈ relaxedCandidates [(5, c5State)] c5Route c5Lookup c3Cfg →
        (v, st) ∈ [(5, c5State)] ∧ isFeasible st c5Route c5Lookup c3Cfg false = true ∧
        c = calculateAssignmentCostCosts st c5Route c5Lookup c3Cfg + 5000) ∧
    (∀ p ∈ [(5, c5State)], isFeasible p.2 c5Route c5Lookup c3Cfg false = true →
        (p.1, p.2, calculateAssignmentCostCosts p.2 c5Route c5Lookup c3Cfg + 5000)
          ∈ relaxedCandidates [(5, c5State)] c5Route c5Lookup c3Cfg) ∧
    (∀ st, isFeasible st c5Route c5Lookup c3Cfg false
        = (isTimeFeasible st c5Route c5Lookup && !(checkContractLimit st c5Route).1)) ∧
    (findBestVehicleWithLookahead [(5, c5State)] c5Route c5Lookup c3Cfg (fun _ => 0)
        = none ↔
        relaxedCandidates [(5, c5State)] c5Route c5Lookup c3Cfg = []) ∧
    ((c3Cfg.chainDepth = 0 ∨ c3Cfg.lookAheadDays = 0) →
      ∀ vid ic cs,
        findBestVehicleWithLookahead [(5, c5State)] c5Route c5Lookup c3Cfg (fun _ => 0)
          = some (vid, ic, cs) →
        cs = 0 ∧
        (∃ st, (vid, st, ic) ∈ relaxedCandidates [(5, c5State)] c5Route c5Lookup c3Cfg) ∧
        ∀ v' st' c',
          (v', st', c') ∈ relaxedCandidates [(5, c5State)] c5Route c5Lookup c3Cfg →
          ic ≤ c') :=
  claim5_relaxed_fallback [(5, c5State)] c5Route c5Lookup c3Cfg (fun _ => 0)
    (by norm_num [strictCandidates, isFeasible, isTimeFeasible, checkContractLimit,
      checkSwapPolicy, canSwapAt, getRelation, lookupPair, c5State, c7StateA, c5Route,
      c3Cfg, c5Lookup, pyInt, minutesQ, daysQ])
    (by
      intro c hc
      norm_num [relaxedCandidates, isFeasible, isTimeFeasible, checkContractLimit,
        calculateAssignmentCostCosts, calculateRelocationCostCosts, calculateOverageCost,
        vehicleNeedsService, getRelation, lookupPair, c5State, c7StateA, c5Route, c3Cfg,
        c5Lookup, pyInt, minutesQ] at hc
      subst hc
      norm_num)

end FleetApi
